import Mathlib

/-!
# Verification of the `zipdist` snapshot engine (`src/zipdist/zip.py`)

Shallow embedding of the `Zipdist` class: an object's `__dict__` is an
association list from attribute names to runtime values, the file system is a
map from paths to file contents, and tar archives are maps from archive paths
to captured file lists.  The methods `_save`, `_build`, `_reload`,
`_reload_simple_all`, `_reload_complex_all`, `_reload_simple` and
`_reload_complex` are translated into pure functions; stdout/warning output is
not modelled (it carries no state).  Python exceptions are modelled with
`Except` / an error field: an uncaught exception corresponds to an `.error`
result.

Abstractions used (documented where they matter):
* JSON-serializable Python values (None, numbers, strings, booleans, lists and
  dicts of the same) are represented directly by their JSON image `JVal`;
  `None` is `JVal.null`.  Numeric payloads are `Int` (no floating point claims
  are in scope).
* `np.ndarray` / `pd.DataFrame` payloads are carried structurally; the
  delimited-text encoding written by `tofile`/`to_csv` is represented by the
  structured content it denotes (`FileContent.arrData` / `FileContent.dfData`),
  since no claim concerns the byte-level text format.
* `tar.add(dest)` captures every file under `dest/`; this models the Python
  behaviour for a `dest` without a path separator (where
  `os.path.basename(dest) = dest`).
-/

/-- JSON values as produced/consumed by Python's `json` module. -/
inductive JVal where
  | null
  | num (n : Int)
  | str (s : String)
  | bool (b : Bool)
  | jarr (elems : List JVal)
  | jobj (fields : List (String × JVal))

/-- Runtime attribute values of the host object, partitioned exactly by the
classes `zip.py` branches on: JSON-serializable values, `np.ndarray`
(`isinstance` check, line 266), `pd.DataFrame` (line 283), and any other
(non-serializable) object, which `json.dump`'s `default` lambda turns into
`null` (line 304). -/
inductive PyVal where
  | jv (j : JVal)
  | arr (xs : List Int)
  | df (cols : List String) (rows : List (List Int))
  | other

/-- First-match association-list lookup: Python `dict` access. -/
def assocLookup {α : Type} : List (String × α) → String → Option α
  | [], _ => none
  | (k', v) :: rest, k => if k' = k then some v else assocLookup rest k

/-- Association-list update in place (Python `dict` assignment keeps the
insertion position of an existing key and appends a new key). -/
def assocSet {α : Type} : List (String × α) → String → α → List (String × α)
  | [], k, v => [(k, v)]
  | (k', v') :: rest, k, v =>
      if k' = k then (k, v) :: rest else (k', v') :: assocSet rest k v

/-- The host object: its `__dict__`. -/
structure Obj where
  attrs : List (String × PyVal)

def getattr (o : Obj) (k : String) : Option PyVal := assocLookup o.attrs k

def setattr (o : Obj) (k : String) (v : PyVal) : Obj := ⟨assocSet o.attrs k v⟩

/-- Contents of a file on disk.  `arrData` is the comma-delimited text written
by `ndarray.tofile(sep=",")`; `dfData` the header+rows CSV written by
`DataFrame.to_csv(index=False)`; the text is represented by the data it
denotes. -/
inductive FileContent where
  | json (j : JVal)
  | arrData (xs : List Int)
  | dfData (cols : List String) (rows : List (List Int))

/-- The file system: existing directories and a map path → content. -/
structure Disk where
  dirs : List String
  files : List (String × FileContent)

def getFile (d : Disk) (p : String) : Option FileContent := assocLookup d.files p

def setFile (d : Disk) (p : String) (c : FileContent) : Disk :=
  ⟨d.dirs, assocSet d.files p c⟩

/-- `Zipdist._make_dest_directory`: create the directory only if absent; never
cleans existing contents. -/
def mkdirIfAbsent (d : Disk) (dir : String) : Disk :=
  if dir ∈ d.dirs then d else ⟨dir :: d.dirs, d.files⟩

/-- Sequentially write a list of files (used by tar extraction). -/
def writeFiles (d : Disk) : List (String × FileContent) → Disk
  | [] => d
  | (p, c) :: rest => writeFiles (setFile d p c) rest

/-- tar archives on disk: archive path → the files captured inside it. -/
abbrev Archives := List (String × List (String × FileContent))

/-- `os.path.join dest name`. -/
def pathJoin (dir fname : String) : String := (dir ++ "/") ++ fname

/-- Whether path `p` lies inside directory `dir` (used to model
`tar.add(dest)` capturing the directory's recursive contents). -/
def inDir (dir : String) (p : String) : Bool :=
  (dir ++ "/").data.isPrefixOf p.data

/-- `json.dump(v, default = lambda x: None)` on a single value: serializable
values serialize to themselves, everything else (ndarray, DataFrame, other
non-serializable objects) becomes `null` (zip.py line 304). -/
def pyToJson : PyVal → JVal
  | .jv j => j
  | .arr _ => .null
  | .df _ _ => .null
  | .other => .null

/-- `json.load` produces plain Python values from JSON. -/
def jsonToPy (j : JVal) : PyVal := .jv j

/-- Python `v is None` on a value loaded from JSON. -/
def isNull : JVal → Bool
  | .null => true
  | _ => false

/-- Whether a value is classified complex by `_save` (ndarray or DataFrame). -/
def isComplexV : PyVal → Bool
  | .arr _ => true
  | .df _ _ => true
  | _ => false

/-- Whether a value is directly JSON-serializable. -/
def isJsonV : PyVal → Bool
  | .jv _ => true
  | _ => false

/-- Attribute `k` of `o` currently holds an `np.ndarray`. -/
def arrAt (o : Obj) (k : String) : Bool :=
  match getattr o k with
  | some (.arr _) => true
  | _ => false

/-- Attribute `k` of `o` currently holds a `pd.DataFrame`. -/
def dfAt (o : Obj) (k : String) : Bool :=
  match getattr o k with
  | some (.df _ _) => true
  | _ => false

/-- Python `str()` of an attribute value, used only for the `dest` default
`str(self.name)`.  The repr of composite/non-scalar values is abstracted (all
theorems below pass explicit destinations). -/
def pyStr : Option PyVal → String
  | some (.jv (.str s)) => s
  | some (.jv (.num n)) => toString n
  | some (.jv (.bool b)) => if b then "True" else "False"
  | some (.jv .null) => "None"
  | _ => "object"

/-- Python exceptions that the translated methods can raise. -/
inductive PyErr where
  | keyError (k : String)
  | typeError
  | attributeError (k : String)
  | assertionError (msg : String)
  | fileNotFound (p : String)
  | jsonDecodeError (p : String)
  | osError (p : String)

/-- The complex-manifest entry recorded for an ndarray attribute
(zip.py line 271): filename `dest/k.cs` (sic, `.cs`). -/
def npEntry (dest k : String) : JVal :=
  .jobj [("filename", .str (pathJoin dest (k ++ ".cs"))),
         ("filetype", .str "np.ndarray"),
         ("fileformat", .str "csv")]

/-- The complex-manifest entry recorded for a DataFrame attribute
(zip.py line 288): filename `dest/k.csv`. -/
def pdEntry (dest k : String) : JVal :=
  .jobj [("filename", .str (pathJoin dest (k ++ ".csv"))),
         ("filetype", .str "pd.DataFrame"),
         ("fileformat", .str "csv")]

/-- `self._complex_attributes[k] = entry` (dict mutation on the attribute;
the attribute always holds a dict at every call site in `_save`). -/
def addComplexEntry (o : Obj) (k : String) (e : JVal) : Obj :=
  match getattr o "_complex_attributes" with
  | some (.jv (.jobj m)) =>
      setattr o "_complex_attributes" (.jv (.jobj (assocSet m k e)))
  | _ => o

/-- Loop body of `Zipdist._save_numpy_attributes` over the key snapshot
returned by `_get_attributes()`: each ndarray attribute is written to
`dest/k.cs` and recorded in `_complex_attributes`. -/
def save_numpy_go (dest : String) : Obj → Disk → List String → Obj × Disk
  | o, disk, [] => (o, disk)
  | o, disk, k :: ks =>
    match getattr o k with
    | some (.arr xs) =>
        save_numpy_go dest (addComplexEntry o k (npEntry dest k))
          (setFile disk (pathJoin dest (k ++ ".cs")) (.arrData xs)) ks
    | _ => save_numpy_go dest o disk ks

/-- `Zipdist._save_numpy_attributes`. -/
def save_numpy_attributes (o : Obj) (dest : String) (disk : Disk) : Obj × Disk :=
  save_numpy_go dest o disk (o.attrs.map Prod.fst)

/-- Loop body of `Zipdist._save_pandas_attributes`: each DataFrame attribute
is written to `dest/k.csv` and recorded in `_complex_attributes`. -/
def save_pandas_go (dest : String) : Obj → Disk → List String → Obj × Disk
  | o, disk, [] => (o, disk)
  | o, disk, k :: ks =>
    match getattr o k with
    | some (.df cols rows) =>
        save_pandas_go dest (addComplexEntry o k (pdEntry dest k))
          (setFile disk (pathJoin dest (k ++ ".csv")) (.dfData cols rows)) ks
    | _ => save_pandas_go dest o disk ks

/-- `Zipdist._save_pandas_attributes`. -/
def save_pandas_attributes (o : Obj) (dest : String) (disk : Disk) : Obj × Disk :=
  save_pandas_go dest o disk (o.attrs.map Prod.fst)

/-- `Zipdist._save_complex_attributes`: `json.dump(self._complex_attributes)`
into `dest/complex_attributes.json` (the attribute always exists and holds a
dict when `_save` calls this). -/
def save_complex_attributes (o : Obj) (dest : String) (disk : Disk) : Disk :=
  setFile disk (pathJoin dest "complex_attributes.json")
    (.json (pyToJson ((getattr o "_complex_attributes").getD .other)))

/-- `Zipdist._save_simple_attributes`: `json.dump(self.__dict__, default =
lambda x: None)` into `dest/simple_attributes.json` — the whole `__dict__`,
with unserializable values downgraded to `null`. -/
def save_simple_attributes (o : Obj) (dest : String) (disk : Disk) : Disk :=
  setFile disk (pathJoin dest "simple_attributes.json")
    (.json (.jobj (o.attrs.map (fun p => (p.1, pyToJson p.2)))))

/-- `Zipdist._save_as_tar_gz`: `tar.add(dest)` captures every file under
`dest/` into the archive at `dest_tar` (replacing any archive at that path). -/
def save_as_tar_gz (dest destTar : String) (disk : Disk) (archives : Archives) :
    Archives :=
  assocSet archives destTar (disk.files.filter (fun p => inDir dest p.1))

/-- Result of `_save`: the mutated object, the file system and the archives. -/
structure SaveResult where
  obj : Obj
  disk : Disk
  archives : Archives

/-- `Zipdist._save` (zip.py lines 71–107): resolve defaults, reset both
manifest attributes to fresh empty dicts, ensure the directory exists, run the
numpy and pandas passes, write both manifest JSON files, pack the archive. -/
def save (o : Obj) (dest destTar : Option String) (disk : Disk)
    (archives : Archives) : SaveResult :=
  let d := match dest with | some s => s | none => pyStr (getattr o "name")
  let t := match destTar with | some s => s | none => d ++ ".tar.gz"
  let o := setattr o "_complex_attributes" (.jv (.jobj []))
  let o := setattr o "_simple_attributes" (.jv (.jobj []))
  let disk := mkdirIfAbsent disk d
  let (o, disk) := save_numpy_attributes o d disk
  let (o, disk) := save_pandas_attributes o d disk
  let disk := save_complex_attributes o d disk
  let disk := save_simple_attributes o d disk
  ⟨o, disk, save_as_tar_gz d t disk archives⟩

/-- Loop body of `Zipdist._reload_simple_all` (lines 177–183): skip the two
reserved manifest keys, skip `None` values, set everything else. -/
def applySimpleList (o : Obj) : List (String × JVal) → Obj
  | [] => o
  | (k, v) :: rest =>
    if k = "_complex_attributes" then applySimpleList o rest
    else if k = "_simple_attributes" then applySimpleList o rest
    else if isNull v then applySimpleList o rest
    else applySimpleList (setattr o k (jsonToPy v)) rest

/-- `Zipdist._reload_simple_all`.  Iterating `.items()` of a non-dict (or a
missing attribute) raises in Python; modelled as an error result. -/
def reload_simple_all (o : Obj) : Except PyErr Obj :=
  match getattr o "_simple_attributes" with
  | some (.jv (.jobj m)) => .ok (applySimpleList o m)
  | some _ => .error .typeError
  | none => .error (.attributeError "_simple_attributes")

/-- `np.genfromtxt(filename, delimiter=',')` on the stored path value: a
non-string path or a missing file raises; reading back the file written by
`tofile` yields the array.  (Text-parsing a file of a different shape is out
of modelled scope and mapped to an error.) -/
def readArrFile (disk : Disk) (fn : JVal) : Except PyErr PyVal :=
  match fn with
  | .str p =>
    match getFile disk p with
    | some (.arrData xs) => .ok (.arr xs)
    | some _ => .error (.osError p)
    | none => .error (.osError p)
  | _ => .error .typeError

/-- `pd.read_csv(filename, sep=",")`, analogous to `readArrFile`. -/
def readDfFile (disk : Disk) (fn : JVal) : Except PyErr PyVal :=
  match fn with
  | .str p =>
    match getFile disk p with
    | some (.dfData cols rows) => .ok (.df cols rows)
    | some _ => .error (.osError p)
    | none => .error (.osError p)
  | _ => .error .typeError

/-- Body of `Zipdist._reload_complex` (lines 214–232) as a pure function of
the manifest dict, the disk and the key: returns `.ok none` when the entry is
skipped (unrecognized `filetype`: the dispatch `KeyError` is caught, a warning
is emitted and nothing is set), `.ok (some w)` when the decoded value `w` is
to be assigned, `.error` when an uncaught exception escapes.  Line 214
(`v = self._complex_attributes[k]`) and the three field accesses (lines
215–217) sit OUTSIDE the `try`, so their `KeyError`s propagate. -/
def decodeVal (m : List (String × JVal)) (disk : Disk) (k : String) :
    Except PyErr (Option PyVal) :=
  match assocLookup m k with
  | none => .error (.keyError k)
  | some entry =>
    match entry with
    | .jobj fields =>
      match assocLookup fields "filename" with
      | none => .error (.keyError "filename")
      | some fn =>
        match assocLookup fields "filetype" with
        | none => .error (.keyError "filetype")
        | some ft =>
          match assocLookup fields "fileformat" with
          | none => .error (.keyError "fileformat")
          | some _ =>
            match ft with
            | .str s =>
              if s = "np.ndarray" then (readArrFile disk fn).map some
              else if s = "pd.DataFrame" then (readDfFile disk fn).map some
              else .ok none
            | _ => .ok none
    | _ => .error .typeError

/-- `Zipdist._reload_complex`: read `self._complex_attributes`, process entry
`k`, assign the decoded value if any. -/
def reload_complex (o : Obj) (disk : Disk) (k : String) : Except PyErr Obj :=
  match getattr o "_complex_attributes" with
  | some (.jv (.jobj m)) =>
    match decodeVal m disk k with
    | .ok none => .ok o
    | .ok (some w) => .ok (setattr o k w)
    | .error e => .error e
  | some _ => .error .typeError
  | none => .error (.attributeError "_complex_attributes")

/-- Loop of `Zipdist._reload_complex_all` over the key snapshot: each
iteration calls `_reload_complex`, which re-reads the manifest attribute. -/
def reload_complex_go (disk : Disk) : Obj → List String → Except PyErr Obj
  | o, [] => .ok o
  | o, k :: ks =>
    match reload_complex o disk k with
    | .ok o' => reload_complex_go disk o' ks
    | .error e => .error e

/-- `Zipdist._reload_complex_all` (lines 185–196). -/
def reload_complex_all (o : Obj) (disk : Disk) : Except PyErr Obj :=
  match getattr o "_complex_attributes" with
  | some (.jv (.jobj m)) => reload_complex_go disk o (m.map Prod.fst)
  | some _ => .error .typeError
  | none => .error (.attributeError "_complex_attributes")

/-- `Zipdist._reload_simple` (lines 234–247): one `try` around
`setattr(self, k, self._simple_attributes[k])` catching only `KeyError`
(missing key → warning, no state change).  Note: no `None` check and no
reserved-key check here, unlike `_reload_simple_all`. -/
def reload_simple (o : Obj) (k : String) : Except PyErr Obj :=
  match getattr o "_simple_attributes" with
  | some (.jv (.jobj m)) =>
    match assocLookup m k with
    | some v => .ok (setattr o k (jsonToPy v))
    | none => .ok o
  | some _ => .error .typeError
  | none => .error (.attributeError "_simple_attributes")

/-- `Zipdist._reload` (lines 149–161): simple pass then complex pass. -/
def reload (o : Obj) (disk : Disk) : Except PyErr Obj :=
  match reload_simple_all o with
  | .ok o' => reload_complex_all o' disk
  | .error e => .error e

/-- `tarfile.open(dest_tar, "r:gz")` + `extractall()`: fails if the archive is
absent, otherwise writes the captured files back onto the file system. -/
def extractTarfile (archives : Archives) (destTar : String) (disk : Disk) :
    Option Disk :=
  match assocLookup archives destTar with
  | some fs => some (writeFiles disk fs)
  | none => none

/-- Result of `_build`: the (possibly partially) mutated object, the file
system, and the uncaught exception if one escaped.  Python mutates `self` in
place, so mutations made before an exception survive; the `obj` field reflects
exactly those. -/
structure BuildResult where
  obj : Obj
  disk : Disk
  err : Option PyErr

/-- `Zipdist._build` (lines 109–147): reset both manifest attributes, resolve
defaults, set `self.dest` / `self.dest_tar`, extract the archive, load the two
manifest JSON files (asserting each exists — `AssertionError` if not), and, if
`reload` is requested, run the full reload.  The boolean parameter is named
`reloadFlag` here because `reload` names the translated `_reload`. -/
def build (o : Obj) (dest destTar : Option String) (disk : Disk)
    (archives : Archives) (reloadFlag : Bool) : BuildResult :=
  let o := setattr o "_complex_attributes" (.jv (.jobj []))
  let o := setattr o "_simple_attributes" (.jv (.jobj []))
  let d := match dest with | some s => s | none => pyStr (getattr o "name")
  let t := match destTar with | some s => s | none => d ++ ".tar.gz"
  let o := setattr o "dest" (.jv (.str d))
  let o := setattr o "dest_tar" (.jv (.str t))
  match extractTarfile archives t disk with
  | none => ⟨o, disk, some (.fileNotFound t)⟩
  | some disk' =>
    match getFile disk' (pathJoin d "complex_attributes.json") with
    | none => ⟨o, disk', some (.assertionError "complex_attributes.json")⟩
    | some (.json j) =>
      let o := setattr o "_complex_attributes" (jsonToPy j)
      match getFile disk' (pathJoin d "simple_attributes.json") with
      | none => ⟨o, disk', some (.assertionError "simple_attributes.json")⟩
      | some (.json j2) =>
        let o := setattr o "_simple_attributes" (jsonToPy j2)
        if reloadFlag then
          match reload o disk' with
          | .ok o' => ⟨o', disk', none⟩
          | .error e => ⟨o, disk', some e⟩
        else ⟨o, disk', none⟩
      | some _ => ⟨o, disk', some (.jsonDecodeError "simple_attributes.json")⟩
    | some _ => ⟨o, disk', some (.jsonDecodeError "complex_attributes.json")⟩

/-! ## Association-list lemmas -/

theorem assocLookup_set_self {α : Type} (l : List (String × α)) (k : String) (v : α) :
    assocLookup (assocSet l k v) k = some v := by
  induction l with
  | nil => simp [assocSet, assocLookup]
  | cons p rest ih =>
    obtain ⟨k', v'⟩ := p
    by_cases h : k' = k
    · simp [assocSet, h, assocLookup]
    · simp [assocSet, h, assocLookup, ih]

theorem assocLookup_set_ne {α : Type} (l : List (String × α)) (k k' : String) (v : α)
    (h : k' ≠ k) : assocLookup (assocSet l k v) k' = assocLookup l k' := by
  have hkk : ¬ k = k' := fun he => h he.symm
  induction l with
  | nil => simp [assocSet, assocLookup, hkk]
  | cons p rest ih =>
    obtain ⟨q, w⟩ := p
    by_cases hq : q = k
    · subst hq
      simp [assocSet, assocLookup, hkk]
    · simp [assocSet, hq, assocLookup, ih]

theorem assocSet_self_of_lookup {α : Type} {l : List (String × α)} {k : String} {v : α}
    (h : assocLookup l k = some v) : assocSet l k v = l := by
  induction l with
  | nil => simp [assocLookup] at h
  | cons p rest ih =>
    obtain ⟨q, w⟩ := p
    by_cases hq : q = k
    · subst hq
      simp [assocLookup] at h
      simp [assocSet, h]
    · simp [assocLookup, hq] at h
      simp [assocSet, hq, ih h]

theorem assocSet_assocSet {α : Type} (l : List (String × α)) (k : String) (a b : α) :
    assocSet (assocSet l k a) k b = assocSet l k b := by
  induction l with
  | nil => simp [assocSet]
  | cons p rest ih =>
    obtain ⟨q, w⟩ := p
    by_cases hq : q = k
    · simp [assocSet, hq]
    · simp [assocSet, hq, ih]

theorem mem_keys_of_lookup {α : Type} {l : List (String × α)} {k : String} {v : α}
    (h : assocLookup l k = some v) : k ∈ l.map Prod.fst := by
  induction l with
  | nil => simp [assocLookup] at h
  | cons p rest ih =>
    obtain ⟨q, w⟩ := p
    by_cases hq : q = k
    · simp [hq]
    · simp [assocLookup, hq] at h
      simp [ih h]

theorem lookup_none_of_not_mem {α : Type} {l : List (String × α)} {k : String}
    (h : k ∉ l.map Prod.fst) : assocLookup l k = none := by
  induction l with
  | nil => rfl
  | cons p rest ih =>
    obtain ⟨q, w⟩ := p
    have h1 : ¬ q = k := fun he => h (by simp [he])
    have h2 : k ∉ rest.map Prod.fst := fun hm => h (by simp [hm])
    simp [assocLookup, h1, ih h2]

theorem lookup_mem {α : Type} {l : List (String × α)} {k : String} {v : α}
    (h : assocLookup l k = some v) : (k, v) ∈ l := by
  induction l with
  | nil => simp [assocLookup] at h
  | cons p rest ih =>
    obtain ⟨q, w⟩ := p
    by_cases hq : q = k
    · subst hq
      simp [assocLookup] at h
      simp [h]
    · simp [assocLookup, hq] at h
      simp [ih h]

theorem assocLookup_map_value {α β : Type} (f : α → β) (l : List (String × α)) (k : String) :
    assocLookup (l.map (fun p => (p.1, f p.2))) k = (assocLookup l k).map f := by
  induction l with
  | nil => rfl
  | cons p rest ih =>
    obtain ⟨q, w⟩ := p
    by_cases hq : q = k
    · simp [assocLookup, hq]
    · simp [assocLookup, hq, ih]

theorem keys_assocSet {α : Type} (l : List (String × α)) (k : String) (v : α) :
    (assocSet l k v).map Prod.fst =
      if k ∈ l.map Prod.fst then l.map Prod.fst else l.map Prod.fst ++ [k] := by
  induction l with
  | nil => simp [assocSet]
  | cons p rest ih =>
    obtain ⟨q, w⟩ := p
    by_cases hq : q = k
    · subst hq
      simp [assocSet]
    · by_cases hm : k ∈ rest.map Prod.fst
      · simp [assocSet, hq, ih, hm, Ne.symm hq]
      · simp [assocSet, hq, ih, hm, Ne.symm hq]

theorem nodup_keys_assocSet {α : Type} (l : List (String × α)) (k : String) (v : α)
    (h : (l.map Prod.fst).Nodup) : ((assocSet l k v).map Prod.fst).Nodup := by
  rw [keys_assocSet]
  by_cases hm : k ∈ l.map Prod.fst
  · simpa [hm] using h
  · simp only [hm, if_false]
    rw [List.nodup_append]
    refine ⟨h, List.nodup_singleton k, ?_⟩
    intro a ha hb
    simp at hb
    subst hb
    exact hm ha

theorem assocLookup_filter_key {α : Type} (pred : String → Bool) (l : List (String × α))
    (k : String) (h : pred k = true) :
    assocLookup (l.filter (fun p => pred p.1)) k = assocLookup l k := by
  induction l with
  | nil => rfl
  | cons p rest ih =>
    obtain ⟨q, w⟩ := p
    by_cases hq : q = k
    · subst hq
      simp [List.filter, h, assocLookup]
    · by_cases hp : pred q
      · simp [List.filter, hp, assocLookup, hq, ih]
      · simp [List.filter, hp, assocLookup, hq, ih]

theorem nodup_keys_filter {α : Type} (pred : String × α → Bool) (l : List (String × α))
    (h : (l.map Prod.fst).Nodup) : ((l.filter pred).map Prod.fst).Nodup :=
  h.sublist ((List.filter_sublist l).map Prod.fst)

/-! ## Object / disk access lemmas -/

theorem getattr_setattr_self (o : Obj) (k : String) (v : PyVal) :
    getattr (setattr o k v) k = some v := assocLookup_set_self ..

theorem getattr_setattr_ne (o : Obj) (k k' : String) (v : PyVal) (h : k' ≠ k) :
    getattr (setattr o k v) k' = getattr o k' := assocLookup_set_ne _ _ _ _ h

theorem setattr_setattr (o : Obj) (k : String) (a b : PyVal) :
    setattr (setattr o k a) k b = setattr o k b := by
  simp [setattr, assocSet_assocSet]

theorem setattr_self_of_getattr {o : Obj} {k : String} {v : PyVal}
    (h : getattr o k = some v) : setattr o k v = o := by
  simp [setattr, assocSet_self_of_lookup h]

theorem getFile_setFile_self (d : Disk) (p : String) (c : FileContent) :
    getFile (setFile d p c) p = some c := assocLookup_set_self ..

theorem getFile_setFile_ne (d : Disk) (p q : String) (c : FileContent) (h : q ≠ p) :
    getFile (setFile d p c) q = getFile d q := assocLookup_set_ne _ _ _ _ h

/-! ## Path and file-system lemmas -/

theorem string_data_append (s t : String) : (s ++ t).data = s.data ++ t.data := rfl

theorem list_isPrefixOf_append (p r : List Char) : p.isPrefixOf (p ++ r) = true := by
  induction p with
  | nil => simp [List.isPrefixOf]
  | cons a as ih => simp [List.isPrefixOf, ih]

theorem inDir_pathJoin (d f : String) : inDir d (pathJoin d f) = true := by
  unfold inDir pathJoin
  rw [string_data_append]
  exact list_isPrefixOf_append _ _

theorem pathJoin_inj {d a b : String} (h : pathJoin d a = pathJoin d b) : a = b := by
  have hd : ((d ++ "/") ++ a).data = ((d ++ "/") ++ b).data := congrArg String.data h
  rw [string_data_append, string_data_append] at hd
  exact String.ext (List.append_cancel_left hd)

theorem pathJoin_ne (d : String) {a b : String} (h : a ≠ b) :
    pathJoin d a ≠ pathJoin d b := fun he => h (pathJoin_inj he)

theorem getFile_writeFiles (fs : List (String × FileContent)) (d : Disk) (p : String)
    (hnd : (fs.map Prod.fst).Nodup) :
    getFile (writeFiles d fs) p =
      match assocLookup fs p with
      | some c => some c
      | none => getFile d p := by
  induction fs generalizing d with
  | nil => simp [writeFiles, assocLookup]
  | cons qc rest ih =>
    obtain ⟨q, c⟩ := qc
    simp only [List.map_cons, List.nodup_cons] at hnd
    simp only [writeFiles]
    rw [ih _ hnd.2]
    by_cases h : q = p
    · subst h
      have hq : assocLookup rest q = none := lookup_none_of_not_mem hnd.1
      simp [hq, assocLookup, getFile_setFile_self]
    · have : getFile (setFile d q c) p = getFile d p :=
        getFile_setFile_ne _ _ _ _ (fun he => h he.symm)
      simp [assocLookup, h, this]

theorem nodup_files_setFile (d : Disk) (p : String) (c : FileContent)
    (h : (d.files.map Prod.fst).Nodup) : ((setFile d p c).files.map Prod.fst).Nodup :=
  nodup_keys_assocSet _ _ _ h

theorem nodup_files_mkdir (d : Disk) (dir : String)
    (h : (d.files.map Prod.fst).Nodup) : ((mkdirIfAbsent d dir).files.map Prod.fst).Nodup := by
  unfold mkdirIfAbsent
  by_cases hm : dir ∈ d.dirs <;> simp [hm, h]

/-! ## `applySimpleList` (the `_reload_simple_all` loop) -/

theorem applySimple_not_mem (sml : List (String × JVal)) (o : Obj) (k : String)
    (h : k ∉ sml.map Prod.fst) :
    getattr (applySimpleList o sml) k = getattr o k := by
  induction sml generalizing o with
  | nil => rfl
  | cons p rest ih =>
    obtain ⟨q, v⟩ := p
    have h1 : ¬ q = k := fun he => h (by simp [he])
    have h2 : k ∉ rest.map Prod.fst := fun hm => h (by simp [hm])
    by_cases hc : q = "_complex_attributes"
    · simp [applySimpleList, hc, ih _ h2]
    · by_cases hs : q = "_simple_attributes"
      · simp [applySimpleList, hc, hs, ih _ h2]
      · by_cases hn : isNull v
        · simp [applySimpleList, hc, hs, hn, ih _ h2]
        · simp [applySimpleList, hc, hs, hn, ih _ h2,
            getattr_setattr_ne _ _ _ _ (fun he => h1 he.symm)]

theorem applySimple_reserved_cm (sml : List (String × JVal)) (o : Obj) :
    getattr (applySimpleList o sml) "_complex_attributes" =
      getattr o "_complex_attributes" := by
  induction sml generalizing o with
  | nil => rfl
  | cons p rest ih =>
    obtain ⟨q, v⟩ := p
    by_cases hc : q = "_complex_attributes"
    · simp [applySimpleList, hc, ih]
    · by_cases hs : q = "_simple_attributes"
      · simp [applySimpleList, hc, hs, ih]
      · by_cases hn : isNull v
        · simp [applySimpleList, hc, hs, hn, ih]
        · simp [applySimpleList, hc, hs, hn, ih,
            getattr_setattr_ne _ _ _ _ (fun he => hc he.symm)]

theorem applySimple_reserved_sm (sml : List (String × JVal)) (o : Obj) :
    getattr (applySimpleList o sml) "_simple_attributes" =
      getattr o "_simple_attributes" := by
  induction sml generalizing o with
  | nil => rfl
  | cons p rest ih =>
    obtain ⟨q, v⟩ := p
    by_cases hc : q = "_complex_attributes"
    · simp [applySimpleList, hc, ih]
    · by_cases hs : q = "_simple_attributes"
      · simp [applySimpleList, hc, hs, ih]
      · by_cases hn : isNull v
        · simp [applySimpleList, hc, hs, hn, ih]
        · simp [applySimpleList, hc, hs, hn, ih,
            getattr_setattr_ne _ _ _ _ (fun he => hs he.symm)]

theorem applySimple_cons (o : Obj) (q : String) (v : JVal)
    (rest : List (String × JVal)) :
    applySimpleList o ((q, v) :: rest) =
      if q = "_complex_attributes" ∨ q = "_simple_attributes" ∨ isNull v = true
      then applySimpleList o rest
      else applySimpleList (setattr o q (jsonToPy v)) rest := by
  by_cases hc : q = "_complex_attributes"
  · simp [applySimpleList, hc]
  · by_cases hs : q = "_simple_attributes"
    · simp [applySimpleList, hc, hs]
    · by_cases hn : isNull v
      · simp [applySimpleList, hc, hs, hn]
      · simp [applySimpleList, hc, hs, hn]

/-- Full characterization of the `_reload_simple_all` loop under unique
manifest keys: a looked-up entry is applied unless its key is reserved or its
value is `null`. -/
theorem applySimple_lookup (sml : List (String × JVal)) (o : Obj) (k : String)
    (hnd : (sml.map Prod.fst).Nodup) :
    getattr (applySimpleList o sml) k =
      match assocLookup sml k with
      | some v =>
        if k = "_complex_attributes" ∨ k = "_simple_attributes" ∨ isNull v = true
        then getattr o k else some (jsonToPy v)
      | none => getattr o k := by
  induction sml generalizing o with
  | nil => rfl
  | cons p rest ih =>
    obtain ⟨q, v⟩ := p
    simp only [List.map_cons, List.nodup_cons] at hnd
    rw [applySimple_cons]
    by_cases hqk : q = k
    · subst hqk
      have hfr : ∀ o', getattr (applySimpleList o' rest) q = getattr o' q :=
        fun o' => applySimple_not_mem _ _ _ hnd.1
      by_cases hcond : q = "_complex_attributes" ∨ q = "_simple_attributes" ∨ isNull v = true
      · rw [if_pos hcond, hfr]
        simp [assocLookup, hcond]
      · rw [if_neg hcond, hfr, getattr_setattr_self]
        simp [assocLookup, hcond]
    · have hlk : assocLookup ((q, v) :: rest) k = assocLookup rest k := by
        simp [assocLookup, hqk]
      rw [hlk]
      by_cases hcond : q = "_complex_attributes" ∨ q = "_simple_attributes" ∨ isNull v = true
      · rw [if_pos hcond]
        exact ih o hnd.2
      · rw [if_neg hcond, ih _ hnd.2]
        have hg : getattr (setattr o q (jsonToPy v)) k = getattr o k :=
          getattr_setattr_ne _ _ _ _ (fun he => hqk he.symm)
        rw [hg]

/-! ## `_reload_complex` loop lemmas -/

theorem reload_complex_eq (o : Obj) (disk : Disk) (k : String)
    (m : List (String × JVal))
    (h : getattr o "_complex_attributes" = some (.jv (.jobj m))) :
    reload_complex o disk k =
      match decodeVal m disk k with
      | .ok none => .ok o
      | .ok (some w) => .ok (setattr o k w)
      | .error e => .error e := by
  unfold reload_complex
  rw [h]

/-- Running the `_reload_complex_all` loop when every listed entry processes
without an uncaught exception: the loop succeeds, the two manifest attributes
are untouched (provided their names are not listed), unlisted attributes are
untouched, and each listed attribute ends at its decoded value (or its
original value if its entry was skipped). -/
theorem reload_complex_go_ok (disk : Disk) (m : List (String × JVal)) :
    ∀ (ks : List String) (o : Obj),
    getattr o "_complex_attributes" = some (.jv (.jobj m)) →
    "_complex_attributes" ∉ ks →
    (∀ k ∈ ks, ∃ a, decodeVal m disk k = .ok a) →
    ∃ o', reload_complex_go disk o ks = .ok o' ∧
      getattr o' "_complex_attributes" = some (.jv (.jobj m)) ∧
      (∀ k, k ∉ ks → getattr o' k = getattr o k) ∧
      (ks.Nodup → ∀ k ∈ ks,
        getattr o' k =
          match decodeVal m disk k with
          | .ok (some w) => some w
          | _ => getattr o k) := by
  intro ks
  induction ks with
  | nil =>
    intro o hcm _ _
    exact ⟨o, rfl, hcm, fun _ _ => rfl, fun _ k hk => absurd hk (List.not_mem_nil k)⟩
  | cons k ks ih =>
    intro o hcm hres hok
    have hkcm : k ≠ "_complex_attributes" := by
      intro he
      exact hres (by simp [he])
    have hrescm : "_complex_attributes" ∉ ks := fun hm => hres (by simp [hm])
    obtain ⟨a, ha⟩ := hok k (by simp)
    cases a with
    | none =>
      have hstep : reload_complex o disk k = .ok o := by
        rw [reload_complex_eq o disk k m hcm, ha]
      obtain ⟨o', hgo, hcm', hfr, hch⟩ :=
        ih o hcm hrescm (fun k' hk' => hok k' (by simp [hk']))
      refine ⟨o', ?_, hcm', ?_, ?_⟩
      · simp [reload_complex_go, hstep, hgo]
      · intro k₀ hk₀
        exact hfr k₀ (fun hm => hk₀ (by simp [hm]))
      · intro hnd k₀ hk₀
        simp only [List.nodup_cons] at hnd
        rcases List.mem_cons.mp hk₀ with he | hm
        · subst he
          rw [hfr k₀ hnd.1, ha]
        · exact hch hnd.2 k₀ hm
    | some w =>
      have hstep : reload_complex o disk k = .ok (setattr o k w) := by
        rw [reload_complex_eq o disk k m hcm, ha]
      have hcm1 : getattr (setattr o k w) "_complex_attributes" =
          some (.jv (.jobj m)) := by
        rw [getattr_setattr_ne _ _ _ _ (fun he => hkcm he.symm)]
        exact hcm
      obtain ⟨o', hgo, hcm', hfr, hch⟩ :=
        ih (setattr o k w) hcm1 hrescm (fun k' hk' => hok k' (by simp [hk']))
      refine ⟨o', ?_, hcm', ?_, ?_⟩
      · simp [reload_complex_go, hstep, hgo]
      · intro k₀ hk₀
        have hk₀k : k₀ ≠ k := fun he => hk₀ (by simp [he])
        have hk₀ks : k₀ ∉ ks := fun hm => hk₀ (by simp [hm])
        rw [hfr k₀ hk₀ks, getattr_setattr_ne _ _ _ _ hk₀k]
      · intro hnd k₀ hk₀
        simp only [List.nodup_cons] at hnd
        rcases List.mem_cons.mp hk₀ with he | hm
        · subst he
          rw [hfr k₀ hnd.1, ha, getattr_setattr_self]
        · have hk₀k : k₀ ≠ k := fun he => hnd.1 (he ▸ hm)
          rw [hch hnd.2 k₀ hm, getattr_setattr_ne _ _ _ _ hk₀k]

/-- Conversely, a successful `_reload_complex_all` loop means every listed
entry processed without an uncaught exception. -/
theorem reload_complex_go_ok_inv (disk : Disk) (m : List (String × JVal)) :
    ∀ (ks : List String) (o o' : Obj),
    getattr o "_complex_attributes" = some (.jv (.jobj m)) →
    "_complex_attributes" ∉ ks →
    reload_complex_go disk o ks = .ok o' →
    ∀ k ∈ ks, ∃ a, decodeVal m disk k = .ok a := by
  intro ks
  induction ks with
  | nil => intro o o' _ _ _ k hk; exact absurd hk (List.not_mem_nil k)
  | cons k ks ih =>
    intro o o' hcm hres hgo
    have hkcm : k ≠ "_complex_attributes" := fun he => hres (by simp [he])
    have hrescm : "_complex_attributes" ∉ ks := fun hm => hres (by simp [hm])
    have hstepEq := reload_complex_eq o disk k m hcm
    cases ha : decodeVal m disk k with
    | error e =>
      rw [ha] at hstepEq
      simp [reload_complex_go, hstepEq] at hgo
    | ok a =>
      rw [ha] at hstepEq
      cases a with
      | none =>
        have hgo' : reload_complex_go disk o ks = .ok o' := by
          simpa [reload_complex_go, hstepEq] using hgo
        intro k₀ hk₀
        rcases List.mem_cons.mp hk₀ with he | hm
        · exact ⟨none, he ▸ ha⟩
        · exact ih o o' hcm hrescm hgo' k₀ hm
      | some w =>
        have hcm1 : getattr (setattr o k w) "_complex_attributes" =
            some (.jv (.jobj m)) := by
          rw [getattr_setattr_ne _ _ _ _ (fun he => hkcm he.symm)]
          exact hcm
        have hgo' : reload_complex_go disk (setattr o k w) ks = .ok o' := by
          simpa [reload_complex_go, hstepEq] using hgo
        intro k₀ hk₀
        rcases List.mem_cons.mp hk₀ with he | hm
        · exact ⟨some w, he ▸ ha⟩
        · exact ih (setattr o k w) o' hcm1 hrescm hgo' k₀ hm

/-! ## The `_save_numpy_attributes` / `_save_pandas_attributes` passes -/

theorem arrAt_true_elim {o : Obj} {k : String} (h : arrAt o k = true) :
    ∃ xs, getattr o k = some (.arr xs) := by
  unfold arrAt at h
  cases hg : getattr o k with
  | none => rw [hg] at h; simp at h
  | some v =>
    cases v with
    | arr xs => exact ⟨xs, rfl⟩
    | jv j => rw [hg] at h; simp at h
    | df c r => rw [hg] at h; simp at h
    | other => rw [hg] at h; simp at h

theorem dfAt_true_elim {o : Obj} {k : String} (h : dfAt o k = true) :
    ∃ cols rows, getattr o k = some (.df cols rows) := by
  unfold dfAt at h
  cases hg : getattr o k with
  | none => rw [hg] at h; simp at h
  | some v =>
    cases v with
    | df cols rows => exact ⟨cols, rows, rfl⟩
    | jv j => rw [hg] at h; simp at h
    | arr xs => rw [hg] at h; simp at h
    | other => rw [hg] at h; simp at h

theorem arrAt_setattr_jv_of {o : Obj} {q : String} {j₀ : JVal}
    (hq : getattr o q = some (.jv j₀)) (j : JVal) (k : String) :
    arrAt (setattr o q (.jv j)) k = arrAt o k := by
  by_cases h : k = q
  · subst h
    unfold arrAt
    rw [getattr_setattr_self, hq]
  · unfold arrAt
    rw [getattr_setattr_ne _ _ _ _ h]

theorem dfAt_setattr_jv_of {o : Obj} {q : String} {j₀ : JVal}
    (hq : getattr o q = some (.jv j₀)) (j : JVal) (k : String) :
    dfAt (setattr o q (.jv j)) k = dfAt o k := by
  by_cases h : k = q
  · subst h
    unfold dfAt
    rw [getattr_setattr_self, hq]
  · unfold dfAt
    rw [getattr_setattr_ne _ _ _ _ h]

theorem save_numpy_go_cons (dest k : String) (ks : List String) (o : Obj)
    (disk : Disk) :
    save_numpy_go dest o disk (k :: ks) =
      match getattr o k with
      | some (.arr xs) =>
          save_numpy_go dest (addComplexEntry o k (npEntry dest k))
            (setFile disk (pathJoin dest (k ++ ".cs")) (.arrData xs)) ks
      | _ => save_numpy_go dest o disk ks := rfl

theorem save_numpy_go_cons_skip {o : Obj} {k : String} (dest : String)
    (ks : List String) (disk : Disk) (hk : arrAt o k = false) :
    save_numpy_go dest o disk (k :: ks) = save_numpy_go dest o disk ks := by
  rw [save_numpy_go_cons]
  unfold arrAt at hk
  cases hg : getattr o k with
  | none => rfl
  | some v =>
    cases v with
    | arr xs => rw [hg] at hk; simp at hk
    | jv j => rfl
    | df c r => rfl
    | other => rfl

theorem save_numpy_go_cons_arr {o : Obj} {k : String} {xs : List Int}
    (dest : String) (ks : List String) (disk : Disk)
    (hk : getattr o k = some (.arr xs)) :
    save_numpy_go dest o disk (k :: ks) =
      save_numpy_go dest (addComplexEntry o k (npEntry dest k))
        (setFile disk (pathJoin dest (k ++ ".cs")) (.arrData xs)) ks := by
  rw [save_numpy_go_cons, hk]

theorem save_pandas_go_cons (dest k : String) (ks : List String) (o : Obj)
    (disk : Disk) :
    save_pandas_go dest o disk (k :: ks) =
      match getattr o k with
      | some (.df cols rows) =>
          save_pandas_go dest (addComplexEntry o k (pdEntry dest k))
            (setFile disk (pathJoin dest (k ++ ".csv")) (.dfData cols rows)) ks
      | _ => save_pandas_go dest o disk ks := rfl

theorem save_pandas_go_cons_skip {o : Obj} {k : String} (dest : String)
    (ks : List String) (disk : Disk) (hk : dfAt o k = false) :
    save_pandas_go dest o disk (k :: ks) = save_pandas_go dest o disk ks := by
  rw [save_pandas_go_cons]
  unfold dfAt at hk
  cases hg : getattr o k with
  | none => rfl
  | some v =>
    cases v with
    | df cols rows => rw [hg] at hk; simp at hk
    | jv j => rfl
    | arr xs => rfl
    | other => rfl

theorem save_pandas_go_cons_df {o : Obj} {k : String} {cols : List String}
    {rows : List (List Int)} (dest : String) (ks : List String) (disk : Disk)
    (hk : getattr o k = some (.df cols rows)) :
    save_pandas_go dest o disk (k :: ks) =
      save_pandas_go dest (addComplexEntry o k (pdEntry dest k))
        (setFile disk (pathJoin dest (k ++ ".csv")) (.dfData cols rows)) ks := by
  rw [save_pandas_go_cons, hk]

/-- Characterization of the numpy pass: only the `_complex_attributes` dict
changes on the object; it gains exactly one `npEntry` per listed ndarray
attribute. -/
theorem save_numpy_go_spec (dest : String) :
    ∀ (ks : List String) (o : Obj) (disk : Disk) (m : List (String × JVal)),
    getattr o "_complex_attributes" = some (.jv (.jobj m)) →
    ∃ m' disk',
      save_numpy_go dest o disk ks =
        (setattr o "_complex_attributes" (.jv (.jobj m')), disk') ∧
      (∀ k, assocLookup m' k =
        if k ∈ ks ∧ arrAt o k = true then some (npEntry dest k)
        else assocLookup m k) ∧
      ((disk.files.map Prod.fst).Nodup → (disk'.files.map Prod.fst).Nodup) := by
  intro ks
  induction ks with
  | nil =>
    intro o disk m hcm
    refine ⟨m, disk, ?_, ?_, fun h => h⟩
    · rw [setattr_self_of_getattr hcm]
      rfl
    · intro k; simp
  | cons k ks ih =>
    intro o disk m hcm
    by_cases harr : arrAt o k = true
    · obtain ⟨xs, hk⟩ := arrAt_true_elim harr
      rw [save_numpy_go_cons_arr dest ks disk hk]
      have hadd : addComplexEntry o k (npEntry dest k) =
          setattr o "_complex_attributes"
            (.jv (.jobj (assocSet m k (npEntry dest k)))) := by
        unfold addComplexEntry
        rw [hcm]
      rw [hadd]
      obtain ⟨m', disk', heq, hlk, hnd⟩ :=
        ih (setattr o "_complex_attributes"
              (.jv (.jobj (assocSet m k (npEntry dest k)))))
           (setFile disk (pathJoin dest (k ++ ".cs")) (.arrData xs))
           (assocSet m k (npEntry dest k)) (getattr_setattr_self ..)
      refine ⟨m', disk', ?_, ?_, ?_⟩
      · rw [heq, setattr_setattr]
      · intro k₀
        rw [hlk k₀, arrAt_setattr_jv_of hcm _ _]
        by_cases hin : k₀ ∈ ks ∧ arrAt o k₀ = true
        · rw [if_pos hin, if_pos ⟨List.mem_cons_of_mem _ hin.1, hin.2⟩]
        · rw [if_neg hin]
          by_cases he : k₀ = k
          · subst he
            rw [assocLookup_set_self]
            rw [if_pos ⟨List.mem_cons_self _ _, harr⟩]
          · rw [assocLookup_set_ne _ _ _ _ he]
            have hnc : ¬(k₀ ∈ k :: ks ∧ arrAt o k₀ = true) := by
              intro hc
              rcases List.mem_cons.mp hc.1 with heq | hm
              · exact he heq
              · exact hin ⟨hm, hc.2⟩
            rw [if_neg hnc]
      · intro hdn
        exact hnd (nodup_files_setFile _ _ _ hdn)
    · have harrF : arrAt o k = false := by simpa using harr
      rw [save_numpy_go_cons_skip dest ks disk harrF]
      obtain ⟨m', disk', heq, hlk, hnd⟩ := ih o disk m hcm
      refine ⟨m', disk', heq, ?_, hnd⟩
      intro k₀
      rw [hlk k₀]
      by_cases hin : k₀ ∈ ks ∧ arrAt o k₀ = true
      · rw [if_pos hin, if_pos ⟨List.mem_cons_of_mem _ hin.1, hin.2⟩]
      · rw [if_neg hin]
        have hnc : ¬(k₀ ∈ k :: ks ∧ arrAt o k₀ = true) := by
          intro hc
          rcases List.mem_cons.mp hc.1 with he | hm
          · exact absurd (he ▸ hc.2) (by simp [harrF])
          · exact hin ⟨hm, hc.2⟩
        rw [if_neg hnc]

/-- Characterization of the pandas pass, analogous to `save_numpy_go_spec`. -/
theorem save_pandas_go_spec (dest : String) :
    ∀ (ks : List String) (o : Obj) (disk : Disk) (m : List (String × JVal)),
    getattr o "_complex_attributes" = some (.jv (.jobj m)) →
    ∃ m' disk',
      save_pandas_go dest o disk ks =
        (setattr o "_complex_attributes" (.jv (.jobj m')), disk') ∧
      (∀ k, assocLookup m' k =
        if k ∈ ks ∧ dfAt o k = true then some (pdEntry dest k)
        else assocLookup m k) ∧
      ((disk.files.map Prod.fst).Nodup → (disk'.files.map Prod.fst).Nodup) := by
  intro ks
  induction ks with
  | nil =>
    intro o disk m hcm
    refine ⟨m, disk, ?_, ?_, fun h => h⟩
    · rw [setattr_self_of_getattr hcm]
      rfl
    · intro k; simp
  | cons k ks ih =>
    intro o disk m hcm
    by_cases hdf : dfAt o k = true
    · obtain ⟨cols, rows, hk⟩ := dfAt_true_elim hdf
      rw [save_pandas_go_cons_df dest ks disk hk]
      have hadd : addComplexEntry o k (pdEntry dest k) =
          setattr o "_complex_attributes"
            (.jv (.jobj (assocSet m k (pdEntry dest k)))) := by
        unfold addComplexEntry
        rw [hcm]
      rw [hadd]
      obtain ⟨m', disk', heq, hlk, hnd⟩ :=
        ih (setattr o "_complex_attributes"
              (.jv (.jobj (assocSet m k (pdEntry dest k)))))
           (setFile disk (pathJoin dest (k ++ ".csv")) (.dfData cols rows))
           (assocSet m k (pdEntry dest k)) (getattr_setattr_self ..)
      refine ⟨m', disk', ?_, ?_, ?_⟩
      · rw [heq, setattr_setattr]
      · intro k₀
        rw [hlk k₀, dfAt_setattr_jv_of hcm _ _]
        by_cases hin : k₀ ∈ ks ∧ dfAt o k₀ = true
        · rw [if_pos hin, if_pos ⟨List.mem_cons_of_mem _ hin.1, hin.2⟩]
        · rw [if_neg hin]
          by_cases he : k₀ = k
          · subst he
            rw [assocLookup_set_self]
            rw [if_pos ⟨List.mem_cons_self _ _, hdf⟩]
          · rw [assocLookup_set_ne _ _ _ _ he]
            have hnc : ¬(k₀ ∈ k :: ks ∧ dfAt o k₀ = true) := by
              intro hc
              rcases List.mem_cons.mp hc.1 with heq | hm
              · exact he heq
              · exact hin ⟨hm, hc.2⟩
            rw [if_neg hnc]
      · intro hdn
        exact hnd (nodup_files_setFile _ _ _ hdn)
    · have hdfF : dfAt o k = false := by simpa using hdf
      rw [save_pandas_go_cons_skip dest ks disk hdfF]
      obtain ⟨m', disk', heq, hlk, hnd⟩ := ih o disk m hcm
      refine ⟨m', disk', heq, ?_, hnd⟩
      intro k₀
      rw [hlk k₀]
      by_cases hin : k₀ ∈ ks ∧ dfAt o k₀ = true
      · rw [if_pos hin, if_pos ⟨List.mem_cons_of_mem _ hin.1, hin.2⟩]
      · rw [if_neg hin]
        have hnc : ¬(k₀ ∈ k :: ks ∧ dfAt o k₀ = true) := by
          intro hc
          rcases List.mem_cons.mp hc.1 with he | hm
          · exact absurd (he ▸ hc.2) (by simp [hdfF])
          · exact hin ⟨hm, hc.2⟩
        rw [if_neg hnc]

theorem eq_nil_of_lookup_none {α : Type} {l : List (String × α)}
    (h : ∀ k, assocLookup l k = none) : l = [] := by
  cases l with
  | nil => rfl
  | cons p rest =>
    obtain ⟨q, v⟩ := p
    have := h q
    simp [assocLookup] at this

/-- Full characterization of `_save`: the returned object differs from the
input only in the two reset manifest attributes (with `_complex_attributes`
holding the accumulated manifest `mF`); `mF` holds exactly one entry per
currently-complex attribute; both manifest JSON files are on disk with the
stated contents; the archive captures the directory. -/
theorem save_spec (o : Obj) (d t : String) (disk : Disk) (arch : Archives) :
    ∃ (oF : Obj) (mF : List (String × JVal)) (diskF : Disk),
      save o (some d) (some t) disk arch =
        ⟨oF, diskF, assocSet arch t (diskF.files.filter (fun p => inDir d p.1))⟩ ∧
      oF = setattr (setattr (setattr o "_complex_attributes" (.jv (.jobj [])))
          "_simple_attributes" (.jv (.jobj []))) "_complex_attributes"
          (.jv (.jobj mF)) ∧
      (∀ k, assocLookup mF k =
        if dfAt oF k = true then some (pdEntry d k)
        else if arrAt oF k = true then some (npEntry d k)
        else none) ∧
      getFile diskF (pathJoin d "complex_attributes.json") =
        some (.json (.jobj mF)) ∧
      getFile diskF (pathJoin d "simple_attributes.json") =
        some (.json (.jobj (oF.attrs.map (fun p => (p.1, pyToJson p.2))))) ∧
      ((disk.files.map Prod.fst).Nodup → (diskF.files.map Prod.fst).Nodup) := by
  have hcm2 : getattr (setattr (setattr o "_complex_attributes" (.jv (.jobj [])))
      "_simple_attributes" (.jv (.jobj []))) "_complex_attributes" =
      some (.jv (.jobj [])) := by
    rw [getattr_setattr_ne _ _ _ _ (by decide)]
    exact getattr_setattr_self ..
  obtain ⟨m1, disk2, hnp, hlk1, hnd1⟩ :=
    save_numpy_go_spec d
      ((setattr (setattr o "_complex_attributes" (.jv (.jobj [])))
          "_simple_attributes" (.jv (.jobj []))).attrs.map Prod.fst)
      (setattr (setattr o "_complex_attributes" (.jv (.jobj [])))
          "_simple_attributes" (.jv (.jobj [])))
      (mkdirIfAbsent disk d) [] hcm2
  obtain ⟨m2, disk3, hpd, hlk2, hnd2⟩ :=
    save_pandas_go_spec d
      ((setattr (setattr (setattr o "_complex_attributes" (.jv (.jobj [])))
          "_simple_attributes" (.jv (.jobj []))) "_complex_attributes"
          (.jv (.jobj m1))).attrs.map Prod.fst)
      (setattr (setattr (setattr o "_complex_attributes" (.jv (.jobj [])))
          "_simple_attributes" (.jv (.jobj []))) "_complex_attributes"
          (.jv (.jobj m1)))
      disk2 m1 (getattr_setattr_self ..)
  rw [setattr_setattr] at hpd
  refine ⟨setattr (setattr (setattr o "_complex_attributes" (.jv (.jobj [])))
      "_simple_attributes" (.jv (.jobj []))) "_complex_attributes"
      (.jv (.jobj m2)), m2,
    setFile (setFile disk3 (pathJoin d "complex_attributes.json")
        (.json (.jobj m2)))
      (pathJoin d "simple_attributes.json")
      (.json (.jobj ((setattr (setattr (setattr o "_complex_attributes"
          (.jv (.jobj []))) "_simple_attributes" (.jv (.jobj [])))
          "_complex_attributes" (.jv (.jobj m2))).attrs.map
            (fun p => (p.1, pyToJson p.2))))),
    ?_, rfl, ?_, ?_, ?_, ?_⟩
  · simp only [save, save_numpy_attributes, save_pandas_attributes,
      save_complex_attributes, save_simple_attributes, save_as_tar_gz]
    rw [hnp]
    dsimp only
    rw [hpd]
    dsimp only
    rw [getattr_setattr_self]
    rfl
  · intro k
    have hdf3 : dfAt (setattr (setattr (setattr o "_complex_attributes"
        (.jv (.jobj []))) "_simple_attributes" (.jv (.jobj [])))
        "_complex_attributes" (.jv (.jobj m1))) k =
        dfAt (setattr (setattr o "_complex_attributes" (.jv (.jobj [])))
          "_simple_attributes" (.jv (.jobj []))) k := dfAt_setattr_jv_of hcm2 _ _
    have hdfF : dfAt (setattr (setattr (setattr o "_complex_attributes"
        (.jv (.jobj []))) "_simple_attributes" (.jv (.jobj [])))
        "_complex_attributes" (.jv (.jobj m2))) k =
        dfAt (setattr (setattr o "_complex_attributes" (.jv (.jobj [])))
          "_simple_attributes" (.jv (.jobj []))) k := dfAt_setattr_jv_of hcm2 _ _
    have harrF : arrAt (setattr (setattr (setattr o "_complex_attributes"
        (.jv (.jobj []))) "_simple_attributes" (.jv (.jobj [])))
        "_complex_attributes" (.jv (.jobj m2))) k =
        arrAt (setattr (setattr o "_complex_attributes" (.jv (.jobj [])))
          "_simple_attributes" (.jv (.jobj []))) k := arrAt_setattr_jv_of hcm2 _ _
    rw [hlk2 k, hlk1 k, hdfF, harrF]
    by_cases hdf : dfAt (setattr (setattr o "_complex_attributes"
        (.jv (.jobj []))) "_simple_attributes" (.jv (.jobj []))) k = true
    · have hdf3t : dfAt (setattr (setattr (setattr o "_complex_attributes"
          (.jv (.jobj []))) "_simple_attributes" (.jv (.jobj [])))
          "_complex_attributes" (.jv (.jobj m1))) k = true := hdf3.trans hdf
      have hmem : k ∈ (setattr (setattr (setattr o "_complex_attributes"
          (.jv (.jobj []))) "_simple_attributes" (.jv (.jobj [])))
          "_complex_attributes" (.jv (.jobj m1))).attrs.map Prod.fst := by
        obtain ⟨c, r, hg⟩ := dfAt_true_elim hdf3t
        exact mem_keys_of_lookup hg
      rw [if_pos ⟨hmem, hdf3t⟩, if_pos hdf]
    · have hdfne : ¬(k ∈ (setattr (setattr (setattr o "_complex_attributes"
          (.jv (.jobj []))) "_simple_attributes" (.jv (.jobj [])))
          "_complex_attributes" (.jv (.jobj m1))).attrs.map Prod.fst ∧
          dfAt (setattr (setattr (setattr o "_complex_attributes"
            (.jv (.jobj []))) "_simple_attributes" (.jv (.jobj [])))
            "_complex_attributes" (.jv (.jobj m1))) k = true) :=
        fun hc => hdf (hdf3 ▸ hc.2)
      rw [if_neg hdfne, if_neg hdf]
      by_cases harr : arrAt (setattr (setattr o "_complex_attributes"
          (.jv (.jobj []))) "_simple_attributes" (.jv (.jobj []))) k = true
      · have hmem2 : k ∈ (setattr (setattr o "_complex_attributes"
            (.jv (.jobj []))) "_simple_attributes" (.jv (.jobj []))).attrs.map
            Prod.fst := by
          obtain ⟨xs, hg⟩ := arrAt_true_elim harr
          exact mem_keys_of_lookup hg
        rw [if_pos ⟨hmem2, harr⟩, if_pos harr]
      · rw [if_neg (fun hc => harr hc.2), if_neg harr]
        rfl
  · rw [getFile_setFile_ne _ _ _ _ (pathJoin_ne d (by decide))]
    exact getFile_setFile_self ..
  · exact getFile_setFile_self ..
  · intro h
    exact nodup_files_setFile _ _ _ (nodup_files_setFile _ _ _
      (hnd2 (hnd1 (nodup_files_mkdir _ _ h))))

/-! ## Small helper facts -/

theorem arrAt_of_getattr_arr {o : Obj} {k : String} {xs : List Int}
    (h : getattr o k = some (.arr xs)) : arrAt o k = true := by
  unfold arrAt; rw [h]

theorem dfAt_of_getattr_arr {o : Obj} {k : String} {xs : List Int}
    (h : getattr o k = some (.arr xs)) : dfAt o k = false := by
  unfold dfAt; rw [h]

theorem dfAt_of_getattr_df {o : Obj} {k : String} {c : List String}
    {r : List (List Int)} (h : getattr o k = some (.df c r)) : dfAt o k = true := by
  unfold dfAt; rw [h]

theorem arrAt_of_getattr_df {o : Obj} {k : String} {c : List String}
    {r : List (List Int)} (h : getattr o k = some (.df c r)) : arrAt o k = false := by
  unfold arrAt; rw [h]

theorem isNull_eq_false {j : JVal} (h : j ≠ .null) : isNull j = false := by
  cases j with
  | null => exact absurd rfl h
  | num n => rfl
  | str s => rfl
  | bool b => rfl
  | jarr l => rfl
  | jobj f => rfl

theorem keys_map_value {α β : Type} (f : α → β) (l : List (String × α)) :
    (l.map (fun p => (p.1, f p.2))).map Prod.fst = l.map Prod.fst := by
  induction l with
  | nil => rfl
  | cons p rest ih => simp [ih]

theorem nodup_attrs_setattr (o : Obj) (k : String) (v : PyVal)
    (h : (o.attrs.map Prod.fst).Nodup) :
    ((setattr o k v).attrs.map Prod.fst).Nodup := nodup_keys_assocSet _ _ _ h

/-- `getattr` on the object returned by `_save` at a non-reserved name: the
two manifest-reset writes are invisible. -/
theorem getattr_saved_user (o : Obj) (mF : List (String × JVal)) (k : String)
    (h1 : k ≠ "_complex_attributes") (h2 : k ≠ "_simple_attributes") :
    getattr (setattr (setattr (setattr o "_complex_attributes" (.jv (.jobj [])))
      "_simple_attributes" (.jv (.jobj []))) "_complex_attributes"
      (.jv (.jobj mF))) k = getattr o k := by
  rw [getattr_setattr_ne _ _ _ _ h1, getattr_setattr_ne _ _ _ _ h2,
    getattr_setattr_ne _ _ _ _ h1]

/-- `getattr` on the object state `_build` creates before extraction, at a
name that is none of the four bookkeeping attributes. -/
theorem getattr_build_pre (o : Obj) (d t : String) (k : String)
    (h1 : k ≠ "_complex_attributes") (h2 : k ≠ "_simple_attributes")
    (h3 : k ≠ "dest") (h4 : k ≠ "dest_tar") :
    getattr (setattr (setattr (setattr (setattr o "_complex_attributes"
      (.jv (.jobj []))) "_simple_attributes" (.jv (.jobj []))) "dest"
      (.jv (.str d))) "dest_tar" (.jv (.str t))) k = getattr o k := by
  rw [getattr_setattr_ne _ _ _ _ h4, getattr_setattr_ne _ _ _ _ h3,
    getattr_setattr_ne _ _ _ _ h2, getattr_setattr_ne _ _ _ _ h1]

/-! ## Claim C5 (corrected) -/

/-- C5, counterexample: `_reload_complex` called with a name absent from the
loaded complex manifest raises an uncaught `KeyError` (zip.py line 214 is
outside the `try`), contradicting the claim that neither single-attribute
reload ever propagates an exception. -/
theorem zipdist_c5_counterexample :
    reload_complex ⟨[("_complex_attributes", PyVal.jv (.jobj [])),
        ("_simple_attributes", PyVal.jv (.jobj []))]⟩ ⟨[], []⟩ "x" =
      .error (.keyError "x") := rfl

/-- C5, amended: for `_reload_simple` the claim holds — a name absent from
the loaded simple manifest produces a warning and leaves the object's
attribute state unchanged, with no exception. -/
theorem zipdist_c5_reload_simple_miss (o : Obj) (k : String)
    (m : List (String × JVal))
    (hsm : getattr o "_simple_attributes" = some (.jv (.jobj m)))
    (habs : assocLookup m k = none) :
    reload_simple o k = .ok o := by
  unfold reload_simple
  rw [hsm]
  dsimp only
  rw [habs]

theorem zipdist_c5_reload_simple_miss_witness :
    getattr ⟨[("_simple_attributes", PyVal.jv (.jobj [("y", .num 1)]))]⟩
        "_simple_attributes" = some (.jv (.jobj [("y", .num 1)])) ∧
    assocLookup [("y", JVal.num 1)] "x" = none ∧
    reload_simple ⟨[("_simple_attributes", PyVal.jv (.jobj [("y", .num 1)]))]⟩
        "x" = .ok ⟨[("_simple_attributes", PyVal.jv (.jobj [("y", .num 1)]))]⟩ :=
  ⟨rfl, rfl, zipdist_c5_reload_simple_miss _ "x" _ rfl rfl⟩

/-! ## Claim C6 (corrected) -/

/-- C6, counterexample: the single-attribute reload path `_reload_simple` has
no `None` check (zip.py line 244), so a `null` recorded in the simple manifest
IS written back onto the host object, contradicting "during every reload
operation ... alike". -/
theorem zipdist_c6_counterexample :
    reload_simple ⟨[("_simple_attributes", PyVal.jv (.jobj [("x", .null)]))]⟩
        "x" =
      .ok ⟨[("_simple_attributes", PyVal.jv (.jobj [("x", .null)])),
            ("x", PyVal.jv .null)]⟩ ∧
    getattr ⟨[("_simple_attributes", PyVal.jv (.jobj [("x", .null)])),
        ("x", PyVal.jv .null)]⟩ "x" = some (PyVal.jv .null) := ⟨rfl, rfl⟩

/-- C6, amended: during the full reload path (`_reload_simple_all`, as used by
`_reload`), a `null` recorded in the simple manifest is never written back:
the attribute keeps its previous state on the host object. -/
theorem zipdist_c6_full_reload_skips_null (o : Obj) (k : String)
    (m : List (String × JVal))
    (hsm : getattr o "_simple_attributes" = some (.jv (.jobj m)))
    (hnd : (m.map Prod.fst).Nodup)
    (hk : assocLookup m k = some .null) :
    ∃ o', reload_simple_all o = .ok o' ∧ getattr o' k = getattr o k := by
  refine ⟨applySimpleList o m, ?_, ?_⟩
  · unfold reload_simple_all
    rw [hsm]
  · rw [applySimple_lookup _ _ _ hnd, hk]
    simp [isNull]

theorem zipdist_c6_full_reload_skips_null_witness :
    getattr ⟨[("_simple_attributes", PyVal.jv (.jobj [("x", .null)])),
        ("x", PyVal.jv (.num 9))]⟩ "_simple_attributes" =
      some (.jv (.jobj [("x", .null)])) ∧
    ([("x", JVal.null)].map Prod.fst).Nodup ∧
    assocLookup [("x", JVal.null)] "x" = some .null ∧
    ∃ o', reload_simple_all ⟨[("_simple_attributes",
        PyVal.jv (.jobj [("x", .null)])), ("x", PyVal.jv (.num 9))]⟩ = .ok o' ∧
      getattr o' "x" = getattr ⟨[("_simple_attributes",
        PyVal.jv (.jobj [("x", .null)])), ("x", PyVal.jv (.num 9))]⟩ "x" :=
  ⟨rfl, by decide, rfl,
   zipdist_c6_full_reload_skips_null _ "x" _ rfl (by decide) rfl⟩

/-! ## Claim C3 (confirmed) -/

/-- C3: building against an archive whose extracted directory lacks
`complex_attributes.json` or `simple_attributes.json` fails with a raised
error (`assert os.path.isfile(...)`, zip.py lines 375/397) before any
attribute is restored: every attribute other than the four bookkeeping
attributes `_build` itself writes is untouched. -/
theorem zipdist_c3_missing_manifest_fails (o : Obj) (d t : String) (disk : Disk)
    (arch : Archives) (rl : Bool) (fs : List (String × FileContent))
    (har : assocLookup arch t = some fs)
    (hmiss : getFile (writeFiles disk fs) (pathJoin d "complex_attributes.json")
        = none ∨
      getFile (writeFiles disk fs) (pathJoin d "simple_attributes.json")
        = none) :
    ∃ e, (build o (some d) (some t) disk arch rl).err = some e ∧
      ∀ k, k ≠ "_complex_attributes" → k ≠ "_simple_attributes" →
        k ≠ "dest" → k ≠ "dest_tar" →
        getattr (build o (some d) (some t) disk arch rl).obj k = getattr o k := by
  have hext : extractTarfile arch t disk = some (writeFiles disk fs) := by
    unfold extractTarfile
    rw [har]
  cases hc : getFile (writeFiles disk fs) (pathJoin d "complex_attributes.json") with
  | none =>
    have hb : build o (some d) (some t) disk arch rl =
        ⟨setattr (setattr (setattr (setattr o "_complex_attributes"
            (.jv (.jobj []))) "_simple_attributes" (.jv (.jobj []))) "dest"
            (.jv (.str d))) "dest_tar" (.jv (.str t)),
          writeFiles disk fs,
          some (.assertionError "complex_attributes.json")⟩ := by
      simp only [build]
      rw [hext]
      dsimp only
      rw [hc]
    rw [hb]
    exact ⟨_, rfl, fun k h1 h2 h3 h4 => getattr_build_pre o d t k h1 h2 h3 h4⟩
  | some c =>
    cases c with
    | json j =>
      rcases hmiss with hmc | hms
      · rw [hc] at hmc
        exact absurd hmc (by simp)
      · have hb : build o (some d) (some t) disk arch rl =
            ⟨setattr (setattr (setattr (setattr (setattr o
                "_complex_attributes" (.jv (.jobj []))) "_simple_attributes"
                (.jv (.jobj []))) "dest" (.jv (.str d))) "dest_tar"
                (.jv (.str t))) "_complex_attributes" (jsonToPy j),
              writeFiles disk fs,
              some (.assertionError "simple_attributes.json")⟩ := by
          simp only [build]
          rw [hext]
          dsimp only
          rw [hc]
          dsimp only
          rw [hms]
        rw [hb]
        refine ⟨_, rfl, fun k h1 h2 h3 h4 => ?_⟩
        rw [getattr_setattr_ne _ _ _ _ h1]
        exact getattr_build_pre o d t k h1 h2 h3 h4
    | arrData xs =>
      have hb : build o (some d) (some t) disk arch rl =
          ⟨setattr (setattr (setattr (setattr o "_complex_attributes"
              (.jv (.jobj []))) "_simple_attributes" (.jv (.jobj []))) "dest"
              (.jv (.str d))) "dest_tar" (.jv (.str t)),
            writeFiles disk fs,
            some (.jsonDecodeError "complex_attributes.json")⟩ := by
        simp only [build]
        rw [hext]
        dsimp only
        rw [hc]
      rw [hb]
      exact ⟨_, rfl, fun k h1 h2 h3 h4 => getattr_build_pre o d t k h1 h2 h3 h4⟩
    | dfData cols rows =>
      have hb : build o (some d) (some t) disk arch rl =
          ⟨setattr (setattr (setattr (setattr o "_complex_attributes"
              (.jv (.jobj []))) "_simple_attributes" (.jv (.jobj []))) "dest"
              (.jv (.str d))) "dest_tar" (.jv (.str t)),
            writeFiles disk fs,
            some (.jsonDecodeError "complex_attributes.json")⟩ := by
        simp only [build]
        rw [hext]
        dsimp only
        rw [hc]
      rw [hb]
      exact ⟨_, rfl, fun k h1 h2 h3 h4 => getattr_build_pre o d t k h1 h2 h3 h4⟩

theorem zipdist_c3_missing_manifest_fails_witness :
    assocLookup ([("d.tar.gz", [])] : Archives) "d.tar.gz" = some [] ∧
    (getFile (writeFiles ⟨[], []⟩ []) (pathJoin "d" "complex_attributes.json")
        = none ∨
      getFile (writeFiles ⟨[], []⟩ []) (pathJoin "d" "simple_attributes.json")
        = none) ∧
    ∃ e, (build ⟨[("x", PyVal.jv (.num 3))]⟩ (some "d") (some "d.tar.gz")
        ⟨[], []⟩ [("d.tar.gz", [])] true).err = some e ∧
      ∀ k, k ≠ "_complex_attributes" → k ≠ "_simple_attributes" →
        k ≠ "dest" → k ≠ "dest_tar" →
        getattr (build ⟨[("x", PyVal.jv (.num 3))]⟩ (some "d")
            (some "d.tar.gz") ⟨[], []⟩ [("d.tar.gz", [])] true).obj k =
          getattr ⟨[("x", PyVal.jv (.num 3))]⟩ k :=
  ⟨rfl, Or.inl rfl,
   zipdist_c3_missing_manifest_fails ⟨[("x", PyVal.jv (.num 3))]⟩ "d"
     "d.tar.gz" ⟨[], []⟩ [("d.tar.gz", [])] true [] rfl (Or.inl rfl)⟩

/-! ## Claim C10 (confirmed) -/

theorem build_noreload_eq (o : Obj) (d t : String) (disk : Disk)
    (arch : Archives) (fs : List (String × FileContent)) (j j2 : JVal)
    (har : assocLookup arch t = some fs)
    (hc : getFile (writeFiles disk fs) (pathJoin d "complex_attributes.json") =
      some (.json j))
    (hs : getFile (writeFiles disk fs) (pathJoin d "simple_attributes.json") =
      some (.json j2)) :
    build o (some d) (some t) disk arch false =
      ⟨setattr (setattr (setattr (setattr (setattr (setattr o
          "_complex_attributes" (.jv (.jobj []))) "_simple_attributes"
          (.jv (.jobj []))) "dest" (.jv (.str d))) "dest_tar" (.jv (.str t)))
          "_complex_attributes" (jsonToPy j)) "_simple_attributes"
          (jsonToPy j2),
        writeFiles disk fs, none⟩ := by
  have hext : extractTarfile arch t disk = some (writeFiles disk fs) := by
    unfold extractTarfile
    rw [har]
  simp only [build]
  rw [hext]
  dsimp only
  rw [hc]
  dsimp only
  rw [hs]
  rfl

/-- C10: `_build` sets `dest` and `dest_tar` on the host object itself, before
extraction (they are set even when the archive is missing and extraction
fails); on a successful no-reload build they persist on the object, and a
subsequent `_save` records them in the written simple manifest. -/
theorem zipdist_c10_build_sets_dest :
    (∀ (o : Obj) (d t : String) (disk : Disk) (arch : Archives) (rl : Bool),
      assocLookup arch t = none →
      (build o (some d) (some t) disk arch rl).err = some (.fileNotFound t) ∧
      getattr (build o (some d) (some t) disk arch rl).obj "dest" =
        some (.jv (.str d)) ∧
      getattr (build o (some d) (some t) disk arch rl).obj "dest_tar" =
        some (.jv (.str t))) ∧
    (∀ (o : Obj) (d t d₂ t₂ : String) (disk disk' : Disk) (arch : Archives)
        (o' : Obj),
      build o (some d) (some t) disk arch false = ⟨o', disk', none⟩ →
      getattr o' "dest" = some (.jv (.str d)) ∧
      getattr o' "dest_tar" = some (.jv (.str t)) ∧
      ∃ doc, getFile (save o' (some d₂) (some t₂) disk' arch).disk
          (pathJoin d₂ "simple_attributes.json") = some (.json (.jobj doc)) ∧
        assocLookup doc "dest" = some (.str d) ∧
        assocLookup doc "dest_tar" = some (.str t)) := by
  constructor
  · intro o d t disk arch rl har
    have hext : extractTarfile arch t disk = none := by
      unfold extractTarfile
      rw [har]
    have hb : build o (some d) (some t) disk arch rl =
        ⟨setattr (setattr (setattr (setattr o "_complex_attributes"
            (.jv (.jobj []))) "_simple_attributes" (.jv (.jobj []))) "dest"
            (.jv (.str d))) "dest_tar" (.jv (.str t)),
          disk, some (.fileNotFound t)⟩ := by
      simp only [build]
      rw [hext]
    rw [hb]
    refine ⟨rfl, ?_, ?_⟩
    · rw [getattr_setattr_ne _ _ _ _ (by decide)]
      exact getattr_setattr_self ..
    · exact getattr_setattr_self ..
  · intro o d t d₂ t₂ disk disk' arch o' hb
    cases hext : extractTarfile arch t disk with
    | none =>
      have hb' : build o (some d) (some t) disk arch false =
          ⟨setattr (setattr (setattr (setattr o "_complex_attributes"
              (.jv (.jobj []))) "_simple_attributes" (.jv (.jobj []))) "dest"
              (.jv (.str d))) "dest_tar" (.jv (.str t)),
            disk, some (.fileNotFound t)⟩ := by
        simp only [build]
        rw [hext]
      rw [hb'] at hb
      have := congrArg BuildResult.err hb
      simp at this
    | some dk =>
      have hfs : ∃ fs, assocLookup arch t = some fs ∧ dk = writeFiles disk fs := by
        unfold extractTarfile at hext
        cases har : assocLookup arch t with
        | none => rw [har] at hext; simp at hext
        | some fs =>
          rw [har] at hext
          simp at hext
          exact ⟨fs, rfl, hext.symm⟩
      obtain ⟨fs, har, hdk⟩ := hfs
      subst hdk
      cases hc : getFile (writeFiles disk fs)
          (pathJoin d "complex_attributes.json") with
      | none =>
        have hb' : build o (some d) (some t) disk arch false =
            ⟨setattr (setattr (setattr (setattr o "_complex_attributes"
                (.jv (.jobj []))) "_simple_attributes" (.jv (.jobj []))) "dest"
                (.jv (.str d))) "dest_tar" (.jv (.str t)),
              writeFiles disk fs,
              some (.assertionError "complex_attributes.json")⟩ := by
          simp only [build]
          rw [hext]
          dsimp only
          rw [hc]
        rw [hb'] at hb
        have := congrArg BuildResult.err hb
        simp at this
      | some c =>
        cases c with
        | arrData xs =>
          have hb' : build o (some d) (some t) disk arch false =
              ⟨setattr (setattr (setattr (setattr o "_complex_attributes"
                  (.jv (.jobj []))) "_simple_attributes" (.jv (.jobj [])))
                  "dest" (.jv (.str d))) "dest_tar" (.jv (.str t)),
                writeFiles disk fs,
                some (.jsonDecodeError "complex_attributes.json")⟩ := by
            simp only [build]
            rw [hext]
            dsimp only
            rw [hc]
          rw [hb'] at hb
          have := congrArg BuildResult.err hb
          simp at this
        | dfData cols rows =>
          have hb' : build o (some d) (some t) disk arch false =
              ⟨setattr (setattr (setattr (setattr o "_complex_attributes"
                  (.jv (.jobj []))) "_simple_attributes" (.jv (.jobj [])))
                  "dest" (.jv (.str d))) "dest_tar" (.jv (.str t)),
                writeFiles disk fs,
                some (.jsonDecodeError "complex_attributes.json")⟩ := by
            simp only [build]
            rw [hext]
            dsimp only
            rw [hc]
          rw [hb'] at hb
          have := congrArg BuildResult.err hb
          simp at this
        | json j =>
          cases hs : getFile (writeFiles disk fs)
              (pathJoin d "simple_attributes.json") with
          | none =>
            have hb' : build o (some d) (some t) disk arch false =
                ⟨setattr (setattr (setattr (setattr (setattr o
                    "_complex_attributes" (.jv (.jobj [])))
                    "_simple_attributes" (.jv (.jobj []))) "dest"
                    (.jv (.str d))) "dest_tar" (.jv (.str t)))
                    "_complex_attributes" (jsonToPy j),
                  writeFiles disk fs,
                  some (.assertionError "simple_attributes.json")⟩ := by
              simp only [build]
              rw [hext]
              dsimp only
              rw [hc]
              dsimp only
              rw [hs]
            rw [hb'] at hb
            have := congrArg BuildResult.err hb
            simp at this
          | some c2 =>
            cases c2 with
            | arrData xs =>
              have hb' : build o (some d) (some t) disk arch false =
                  ⟨setattr (setattr (setattr (setattr (setattr o
                      "_complex_attributes" (.jv (.jobj [])))
                      "_simple_attributes" (.jv (.jobj []))) "dest"
                      (.jv (.str d))) "dest_tar" (.jv (.str t)))
                      "_complex_attributes" (jsonToPy j),
                    writeFiles disk fs,
                    some (.jsonDecodeError "simple_attributes.json")⟩ := by
                simp only [build]
                rw [hext]
                dsimp only
                rw [hc]
                dsimp only
                rw [hs]
              rw [hb'] at hb
              have := congrArg BuildResult.err hb
              simp at this
            | dfData cols rows =>
              have hb' : build o (some d) (some t) disk arch false =
                  ⟨setattr (setattr (setattr (setattr (setattr o
                      "_complex_attributes" (.jv (.jobj [])))
                      "_simple_attributes" (.jv (.jobj []))) "dest"
                      (.jv (.str d))) "dest_tar" (.jv (.str t)))
                      "_complex_attributes" (jsonToPy j),
                    writeFiles disk fs,
                    some (.jsonDecodeError "simple_attributes.json")⟩ := by
                simp only [build]
                rw [hext]
                dsimp only
                rw [hc]
                dsimp only
                rw [hs]
              rw [hb'] at hb
              have := congrArg BuildResult.err hb
              simp at this
            | json j2 =>
              rw [build_noreload_eq o d t disk arch fs j j2 har hc hs] at hb
              have ho' := congrArg BuildResult.obj hb
              dsimp only at ho'
              have hdest : getattr o' "dest" = some (.jv (.str d)) := by
                rw [← ho', getattr_setattr_ne _ _ _ _ (by decide),
                  getattr_setattr_ne _ _ _ _ (by decide),
                  getattr_setattr_ne _ _ _ _ (by decide)]
                exact getattr_setattr_self ..
              have hdtar : getattr o' "dest_tar" = some (.jv (.str t)) := by
                rw [← ho', getattr_setattr_ne _ _ _ _ (by decide),
                  getattr_setattr_ne _ _ _ _ (by decide)]
                exact getattr_setattr_self ..
              refine ⟨hdest, hdtar, ?_⟩
              obtain ⟨oF, mF, diskF, heq, hoF, hlk, hcmf, hsmf, hndf⟩ :=
                save_spec o' d₂ t₂ disk' arch
              rw [heq]
              dsimp only
              refine ⟨oF.attrs.map (fun p => (p.1, pyToJson p.2)), hsmf, ?_, ?_⟩
              · rw [assocLookup_map_value]
                have h2 : assocLookup oF.attrs "dest" = some (.jv (.str d)) := by
                  show getattr oF "dest" = some (.jv (.str d))
                  rw [hoF]
                  rw [getattr_saved_user _ _ _ (by decide) (by decide)]
                  exact hdest
                rw [h2]
                rfl
              · rw [assocLookup_map_value]
                have h2 : assocLookup oF.attrs "dest_tar" = some (.jv (.str t)) := by
                  show getattr oF "dest_tar" = some (.jv (.str t))
                  rw [hoF]
                  rw [getattr_saved_user _ _ _ (by decide) (by decide)]
                  exact hdtar
                rw [h2]
                rfl

theorem zipdist_c10_build_sets_dest_witness :
    assocLookup ([] : Archives) "t.tar.gz" = none ∧
    ((build ⟨[("z", PyVal.jv (.num 1))]⟩ (some "d") (some "t.tar.gz") ⟨[], []⟩
        [] true).err = some (.fileNotFound "t.tar.gz") ∧
      getattr (build ⟨[("z", PyVal.jv (.num 1))]⟩ (some "d") (some "t.tar.gz")
          ⟨[], []⟩ [] true).obj "dest" = some (.jv (.str "d")) ∧
      getattr (build ⟨[("z", PyVal.jv (.num 1))]⟩ (some "d") (some "t.tar.gz")
          ⟨[], []⟩ [] true).obj "dest_tar" = some (.jv (.str "t.tar.gz"))) ∧
    build ⟨[("z", PyVal.jv (.num 1))]⟩ (some "d") (some "d.tar.gz") ⟨[], []⟩
        [("d.tar.gz", [("d/complex_attributes.json",
            FileContent.json (.jobj [])),
          ("d/simple_attributes.json", FileContent.json (.jobj []))])] false =
      ⟨⟨[("z", PyVal.jv (.num 1)),
          ("_complex_attributes", PyVal.jv (.jobj [])),
          ("_simple_attributes", PyVal.jv (.jobj [])),
          ("dest", PyVal.jv (.str "d")),
          ("dest_tar", PyVal.jv (.str "d.tar.gz"))]⟩,
        ⟨[], [("d/complex_attributes.json", FileContent.json (.jobj [])),
          ("d/simple_attributes.json", FileContent.json (.jobj []))]⟩,
        none⟩ ∧
    (getattr (⟨[("z", PyVal.jv (.num 1)),
          ("_complex_attributes", PyVal.jv (.jobj [])),
          ("_simple_attributes", PyVal.jv (.jobj [])),
          ("dest", PyVal.jv (.str "d")),
          ("dest_tar", PyVal.jv (.str "d.tar.gz"))]⟩ : Obj) "dest" =
        some (.jv (.str "d")) ∧
      getattr (⟨[("z", PyVal.jv (.num 1)),
          ("_complex_attributes", PyVal.jv (.jobj [])),
          ("_simple_attributes", PyVal.jv (.jobj [])),
          ("dest", PyVal.jv (.str "d")),
          ("dest_tar", PyVal.jv (.str "d.tar.gz"))]⟩ : Obj) "dest_tar" =
        some (.jv (.str "d.tar.gz")) ∧
      ∃ doc, getFile (save (⟨[("z", PyVal.jv (.num 1)),
            ("_complex_attributes", PyVal.jv (.jobj [])),
            ("_simple_attributes", PyVal.jv (.jobj [])),
            ("dest", PyVal.jv (.str "d")),
            ("dest_tar", PyVal.jv (.str "d.tar.gz"))]⟩ : Obj) (some "d2")
            (some "t2") ⟨[], [("d/complex_attributes.json",
              FileContent.json (.jobj [])),
            ("d/simple_attributes.json", FileContent.json (.jobj []))]⟩
            [("d.tar.gz", [("d/complex_attributes.json",
                FileContent.json (.jobj [])),
              ("d/simple_attributes.json", FileContent.json (.jobj []))])]).disk
          (pathJoin "d2" "simple_attributes.json") = some (.json (.jobj doc)) ∧
        assocLookup doc "dest" = some (.str "d") ∧
        assocLookup doc "dest_tar" = some (.str "d.tar.gz")) :=
  ⟨rfl,
   zipdist_c10_build_sets_dest.1 ⟨[("z", PyVal.jv (.num 1))]⟩ "d" "t.tar.gz"
     ⟨[], []⟩ [] true rfl,
   rfl,
   zipdist_c10_build_sets_dest.2 ⟨[("z", PyVal.jv (.num 1))]⟩ "d" "d.tar.gz"
     "d2" "t2" ⟨[], []⟩
     ⟨[], [("d/complex_attributes.json", FileContent.json (.jobj [])),
       ("d/simple_attributes.json", FileContent.json (.jobj []))]⟩
     [("d.tar.gz", [("d/complex_attributes.json",
         FileContent.json (.jobj [])),
       ("d/simple_attributes.json", FileContent.json (.jobj []))])]
     ⟨[("z", PyVal.jv (.num 1)),
       ("_complex_attributes", PyVal.jv (.jobj [])),
       ("_simple_attributes", PyVal.jv (.jobj [])),
       ("dest", PyVal.jv (.str "d")),
       ("dest_tar", PyVal.jv (.str "d.tar.gz"))]⟩ rfl⟩

theorem arrAt_of_getattr_jv {o : Obj} {k : String} {j : JVal}
    (h : getattr o k = some (.jv j)) : arrAt o k = false := by
  unfold arrAt; rw [h]

theorem dfAt_of_getattr_jv {o : Obj} {k : String} {j : JVal}
    (h : getattr o k = some (.jv j)) : dfAt o k = false := by
  unfold dfAt; rw [h]

theorem arrAt_of_getattr_other {o : Obj} {k : String}
    (h : getattr o k = some .other) : arrAt o k = false := by
  unfold arrAt; rw [h]

theorem dfAt_of_getattr_other {o : Obj} {k : String}
    (h : getattr o k = some .other) : dfAt o k = false := by
  unfold dfAt; rw [h]

/-! ## Claim C9 (confirmed) -/

/-- C9: writing the simple manifest never fails as a whole: `_save` always
produces a `simple_attributes.json` holding one entry per attribute of the
(post-save) object, each entry being the `json.dump` image of the value; any
value that is not JSON-serializable is downgraded to `null` at its key. -/
theorem zipdist_c9_simple_serialization_total (o : Obj) (d t : String)
    (disk : Disk) (arch : Archives) :
    ∃ doc, getFile (save o (some d) (some t) disk arch).disk
        (pathJoin d "simple_attributes.json") = some (.json (.jobj doc)) ∧
      (∀ k v, getattr (save o (some d) (some t) disk arch).obj k = some v →
        assocLookup doc k = some (pyToJson v)) ∧
      (∀ v : PyVal, isJsonV v = false → pyToJson v = .null) := by
  obtain ⟨oF, mF, diskF, heq, hoF, hlk, hcmf, hsmf, hndf⟩ :=
    save_spec o d t disk arch
  rw [heq]
  dsimp only
  refine ⟨oF.attrs.map (fun p => (p.1, pyToJson p.2)), hsmf, ?_, ?_⟩
  · intro k v hv
    rw [assocLookup_map_value]
    have h2 : assocLookup oF.attrs k = some v := hv
    rw [h2]
    rfl
  · intro v hv
    cases v with
    | jv j => simp [isJsonV] at hv
    | arr xs => rfl
    | df c r => rfl
    | other => rfl

theorem zipdist_c9_simple_serialization_total_witness :
    ∃ doc, getFile (save ⟨[("a", PyVal.arr [1]), ("b", PyVal.other),
        ("c", PyVal.jv (.num 2))]⟩ (some "d") (some "t") ⟨[], []⟩ []).disk
        (pathJoin "d" "simple_attributes.json") = some (.json (.jobj doc)) ∧
      (∀ k v, getattr (save ⟨[("a", PyVal.arr [1]), ("b", PyVal.other),
          ("c", PyVal.jv (.num 2))]⟩ (some "d") (some "t") ⟨[], []⟩ []).obj k =
          some v → assocLookup doc k = some (pyToJson v)) ∧
      (∀ v : PyVal, isJsonV v = false → pyToJson v = .null) :=
  zipdist_c9_simple_serialization_total ⟨[("a", PyVal.arr [1]),
    ("b", PyVal.other), ("c", PyVal.jv (.num 2))]⟩ "d" "t" ⟨[], []⟩ []

/-! ## Claim C2 (corrected) -/

/-- C2, counterexample: save an object with ndarray attribute `bart`, delete
`bart`, save again into the same directory.  The second complex manifest is
fresh (empty), but the stale encoded file `d/bart.cs` survives in the
directory (`_make_dest_directory` never cleans it) and is packed into the
second archive, contradicting "the archive contains no encoded files left
over from attributes no longer present". -/
theorem zipdist_c2_counterexample :
    (let s1 := save ⟨[("name", PyVal.jv (.str "t")), ("bart", PyVal.arr [1, 2])]⟩
        (some "d") (some "d.tar.gz") ⟨[], []⟩ [];
     let o2 : Obj := ⟨s1.obj.attrs.filter (fun p => p.1 ≠ "bart")⟩;
     let s2 := save o2 (some "d") (some "d.tar.gz") s1.disk s1.archives;
     getFile s2.disk (pathJoin "d" "complex_attributes.json") =
         some (.json (.jobj [])) ∧
       ∃ fs, assocLookup s2.archives "d.tar.gz" = some fs ∧
         assocLookup fs "d/bart.cs" = some (.arrData [1, 2])) :=
  ⟨rfl, _, rfl, rfl⟩

/-- C2, amended: the complex manifest written by any save (in particular the
second of two consecutive saves) contains exactly the currently-present
complex attributes — stale manifest entries never survive.  (Stale encoded
files, however, do survive in the directory and archive; see the
counterexample.) -/
theorem zipdist_c2_manifest_fresh (o : Obj) (d t : String) (disk : Disk)
    (arch : Archives) :
    ∃ mF, getFile (save o (some d) (some t) disk arch).disk
        (pathJoin d "complex_attributes.json") = some (.json (.jobj mF)) ∧
      ∀ k, (∃ e, assocLookup mF k = some e) ↔
        ∃ v, getattr (save o (some d) (some t) disk arch).obj k = some v ∧
          isComplexV v = true := by
  obtain ⟨oF, mF, diskF, heq, hoF, hlk, hcmf, hsmf, hndf⟩ :=
    save_spec o d t disk arch
  rw [heq]
  dsimp only
  refine ⟨mF, hcmf, ?_⟩
  intro k
  constructor
  · rintro ⟨e, he⟩
    rw [hlk k] at he
    by_cases hdf : dfAt oF k = true
    · obtain ⟨c, r, hg⟩ := dfAt_true_elim hdf
      exact ⟨_, hg, rfl⟩
    · rw [if_neg hdf] at he
      by_cases harr : arrAt oF k = true
      · obtain ⟨xs, hg⟩ := arrAt_true_elim harr
        exact ⟨_, hg, rfl⟩
      · rw [if_neg harr] at he
        simp at he
  · rintro ⟨v, hg, hcx⟩
    cases v with
    | jv j => simp [isComplexV] at hcx
    | other => simp [isComplexV] at hcx
    | arr xs =>
      rw [hlk k, dfAt_of_getattr_arr hg, arrAt_of_getattr_arr hg]
      exact ⟨npEntry d k, by simp⟩
    | df c r =>
      rw [hlk k, dfAt_of_getattr_df hg]
      exact ⟨pdEntry d k, by simp⟩

theorem zipdist_c2_manifest_fresh_witness :
    ∃ mF, getFile (save ⟨[("name", PyVal.jv (.str "t")),
        ("bart", PyVal.arr [1, 2])]⟩ (some "d") (some "d.tar.gz")
        ⟨[], []⟩ []).disk (pathJoin "d" "complex_attributes.json") =
        some (.json (.jobj mF)) ∧
      ∀ k, (∃ e, assocLookup mF k = some e) ↔
        ∃ v, getattr (save ⟨[("name", PyVal.jv (.str "t")),
            ("bart", PyVal.arr [1, 2])]⟩ (some "d") (some "d.tar.gz")
            ⟨[], []⟩ []).obj k = some v ∧ isComplexV v = true :=
  zipdist_c2_manifest_fresh ⟨[("name", PyVal.jv (.str "t")),
    ("bart", PyVal.arr [1, 2])]⟩ "d" "d.tar.gz" ⟨[], []⟩ []

/-! ## Claim C7 (confirmed) -/

/-- C7: each attribute of the saved object receives exactly one
classification: it appears in the written complex manifest exactly when its
value is complex (ndarray / DataFrame), it always appears in the written
simple document, and when it is complex its simple-document entry is `null` —
hence unreachable by the reload path, which skips nulls.  No name is both a
complex-manifest entry and a non-null simple entry. -/
theorem zipdist_c7_classification (o : Obj) (d t : String) (disk : Disk)
    (arch : Archives) :
    ∃ cmDoc smDoc,
      getFile (save o (some d) (some t) disk arch).disk
        (pathJoin d "complex_attributes.json") = some (.json (.jobj cmDoc)) ∧
      getFile (save o (some d) (some t) disk arch).disk
        (pathJoin d "simple_attributes.json") = some (.json (.jobj smDoc)) ∧
      ∀ k v, getattr (save o (some d) (some t) disk arch).obj k = some v →
        assocLookup smDoc k = some (pyToJson v) ∧
        (assocLookup cmDoc k).isSome = isComplexV v ∧
        (isComplexV v = true → assocLookup smDoc k = some .null) := by
  obtain ⟨oF, mF, diskF, heq, hoF, hlk, hcmf, hsmf, hndf⟩ :=
    save_spec o d t disk arch
  rw [heq]
  dsimp only
  refine ⟨mF, oF.attrs.map (fun p => (p.1, pyToJson p.2)), hcmf, hsmf, ?_⟩
  intro k v hv
  have hsm : assocLookup (oF.attrs.map (fun p => (p.1, pyToJson p.2))) k =
      some (pyToJson v) := by
    rw [assocLookup_map_value]
    have h2 : assocLookup oF.attrs k = some v := hv
    rw [h2]
    rfl
  refine ⟨hsm, ?_, ?_⟩
  · cases v with
    | jv j =>
      rw [hlk k, dfAt_of_getattr_jv hv, arrAt_of_getattr_jv hv]
      simp [isComplexV]
    | other =>
      rw [hlk k, dfAt_of_getattr_other hv, arrAt_of_getattr_other hv]
      simp [isComplexV]
    | arr xs =>
      rw [hlk k, dfAt_of_getattr_arr hv, arrAt_of_getattr_arr hv]
      simp [isComplexV]
    | df c r =>
      rw [hlk k, dfAt_of_getattr_df hv]
      simp [isComplexV]
  · intro hcx
    cases v with
    | jv j => simp [isComplexV] at hcx
    | other => simp [isComplexV] at hcx
    | arr xs => exact hsm
    | df c r => exact hsm

theorem zipdist_c7_classification_witness :
    ∃ cmDoc smDoc,
      getFile (save ⟨[("years", PyVal.jv (.jarr [.num 2020])),
          ("bart", PyVal.arr [0]),
          ("lisa", PyVal.df ["Pi"] [[3]])]⟩ (some "d") (some "t")
          ⟨[], []⟩ []).disk (pathJoin "d" "complex_attributes.json") =
        some (.json (.jobj cmDoc)) ∧
      getFile (save ⟨[("years", PyVal.jv (.jarr [.num 2020])),
          ("bart", PyVal.arr [0]),
          ("lisa", PyVal.df ["Pi"] [[3]])]⟩ (some "d") (some "t")
          ⟨[], []⟩ []).disk (pathJoin "d" "simple_attributes.json") =
        some (.json (.jobj smDoc)) ∧
      ∀ k v, getattr (save ⟨[("years", PyVal.jv (.jarr [.num 2020])),
          ("bart", PyVal.arr [0]),
          ("lisa", PyVal.df ["Pi"] [[3]])]⟩ (some "d") (some "t")
          ⟨[], []⟩ []).obj k = some v →
        assocLookup smDoc k = some (pyToJson v) ∧
        (assocLookup cmDoc k).isSome = isComplexV v ∧
        (isComplexV v = true → assocLookup smDoc k = some .null) :=
  zipdist_c7_classification ⟨[("years", PyVal.jv (.jarr [.num 2020])),
    ("bart", PyVal.arr [0]), ("lisa", PyVal.df ["Pi"] [[3]])]⟩ "d" "t"
    ⟨[], []⟩ []

/-! ## Claim C4 (confirmed) -/

theorem decodeVal_unknown (m : List (String × JVal)) (disk : Disk) (k : String)
    (fields : List (String × JVal)) (fn ft ff : JVal)
    (hk : assocLookup m k = some (.jobj fields))
    (hfn : assocLookup fields "filename" = some fn)
    (hft : assocLookup fields "filetype" = some ft)
    (hff : assocLookup fields "fileformat" = some ff)
    (hunk : ft ≠ .str "np.ndarray" ∧ ft ≠ .str "pd.DataFrame") :
    decodeVal m disk k = .ok none := by
  unfold decodeVal
  rw [hk]
  dsimp only
  rw [hfn]
  dsimp only
  rw [hft]
  dsimp only
  rw [hff]
  dsimp only
  cases ft with
  | str s =>
    have h1 : ¬ s = "np.ndarray" := fun he => hunk.1 (by rw [he])
    have h2 : ¬ s = "pd.DataFrame" := fun he => hunk.2 (by rw [he])
    simp [h1, h2]
  | null => rfl
  | num n => rfl
  | bool b => rfl
  | jarr l => rfl
  | jobj f => rfl

/-- C4: during a full complex reload, a well-formed manifest entry whose
`filetype` tag matches no registered codec is skipped (the dict-dispatch
`KeyError` at zip.py line 226 is caught: warning, no assignment, no raise),
while every other entry that decodes is still applied. -/
theorem zipdist_c4_unknown_tag_skipped (o : Obj) (disk : Disk)
    (m : List (String × JVal)) (k : String) (fields : List (String × JVal))
    (fn ft ff : JVal)
    (hcm : getattr o "_complex_attributes" = some (.jv (.jobj m)))
    (hnd : (m.map Prod.fst).Nodup)
    (hres : "_complex_attributes" ∉ m.map Prod.fst)
    (hk : assocLookup m k = some (.jobj fields))
    (hfn : assocLookup fields "filename" = some fn)
    (hft : assocLookup fields "filetype" = some ft)
    (hff : assocLookup fields "fileformat" = some ff)
    (hunk : ft ≠ .str "np.ndarray" ∧ ft ≠ .str "pd.DataFrame")
    (hothers : ∀ k' ∈ m.map Prod.fst, k' ≠ k →
      ∃ a, decodeVal m disk k' = .ok a) :
    ∃ o', reload_complex_all o disk = .ok o' ∧
      getattr o' k = getattr o k ∧
      ∀ k' ∈ m.map Prod.fst, k' ≠ k → ∀ w,
        decodeVal m disk k' = .ok (some w) → getattr o' k' = some w := by
  have hdk : decodeVal m disk k = .ok none :=
    decodeVal_unknown m disk k fields fn ft ff hk hfn hft hff hunk
  have hall : ∀ k' ∈ m.map Prod.fst, ∃ a, decodeVal m disk k' = .ok a := by
    intro k' hm
    by_cases he : k' = k
    · exact ⟨none, he ▸ hdk⟩
    · exact hothers k' hm he
  obtain ⟨o', hgo, hcm', hfr, hch⟩ :=
    reload_complex_go_ok disk m (m.map Prod.fst) o hcm hres hall
  have hra : reload_complex_all o disk = .ok o' := by
    unfold reload_complex_all
    rw [hcm]
    exact hgo
  refine ⟨o', hra, ?_, ?_⟩
  · have hmem : k ∈ m.map Prod.fst := mem_keys_of_lookup hk
    rw [hch hnd k hmem, hdk]
  · intro k' hm hne w hdw
    rw [hch hnd k' hm, hdw]

theorem zipdist_c4_unknown_tag_skipped_witness :
    getattr ⟨[("_complex_attributes", PyVal.jv (.jobj
        [("good", .jobj [("filename", .str "d/good.cs"),
          ("filetype", .str "np.ndarray"), ("fileformat", .str "csv")]),
         ("bad", .jobj [("filename", .str "d/bad.pt"),
          ("filetype", .str "torch.Tensor"),
          ("fileformat", .str "csv")])]))]⟩ "_complex_attributes" =
      some (.jv (.jobj
        [("good", .jobj [("filename", .str "d/good.cs"),
          ("filetype", .str "np.ndarray"), ("fileformat", .str "csv")]),
         ("bad", .jobj [("filename", .str "d/bad.pt"),
          ("filetype", .str "torch.Tensor"),
          ("fileformat", .str "csv")])])) ∧
    ∃ o', reload_complex_all ⟨[("_complex_attributes", PyVal.jv (.jobj
        [("good", .jobj [("filename", .str "d/good.cs"),
          ("filetype", .str "np.ndarray"), ("fileformat", .str "csv")]),
         ("bad", .jobj [("filename", .str "d/bad.pt"),
          ("filetype", .str "torch.Tensor"),
          ("fileformat", .str "csv")])]))]⟩
        ⟨[], [("d/good.cs", FileContent.arrData [7])]⟩ = .ok o' ∧
      getattr o' "bad" = getattr ⟨[("_complex_attributes", PyVal.jv (.jobj
        [("good", .jobj [("filename", .str "d/good.cs"),
          ("filetype", .str "np.ndarray"), ("fileformat", .str "csv")]),
         ("bad", .jobj [("filename", .str "d/bad.pt"),
          ("filetype", .str "torch.Tensor"),
          ("fileformat", .str "csv")])]))]⟩ "bad" ∧
      ∀ k' ∈ (([("good", JVal.jobj [("filename", .str "d/good.cs"),
          ("filetype", .str "np.ndarray"), ("fileformat", .str "csv")]),
         ("bad", JVal.jobj [("filename", .str "d/bad.pt"),
          ("filetype", .str "torch.Tensor"),
          ("fileformat", .str "csv")])]).map Prod.fst), k' ≠ "bad" → ∀ w,
        decodeVal [("good", JVal.jobj [("filename", .str "d/good.cs"),
          ("filetype", .str "np.ndarray"), ("fileformat", .str "csv")]),
         ("bad", JVal.jobj [("filename", .str "d/bad.pt"),
          ("filetype", .str "torch.Tensor"),
          ("fileformat", .str "csv")])]
          ⟨[], [("d/good.cs", FileContent.arrData [7])]⟩ k' = .ok (some w) →
        getattr o' k' = some w :=
  ⟨rfl,
   zipdist_c4_unknown_tag_skipped _ _ _ "bad" _ _ _ _ rfl (by decide)
     (by decide) rfl rfl rfl rfl
     ⟨by intro h; injection h with hs; exact absurd hs (by decide),
      by intro h; injection h with hs; exact absurd hs (by decide)⟩
     (by
       intro k' hm hne
       simp only [List.map_cons, List.map_nil] at hm
       rcases List.mem_cons.mp hm with he | hm2
       · subst he
         exact ⟨some (.arr [7]), rfl⟩
       · rcases List.mem_cons.mp hm2 with he | hm3
         · exact absurd he hne
         · exact absurd hm3 (List.not_mem_nil k'))⟩

/-! ## Claim C8 (confirmed) -/

/-- Applying the `_reload_simple_all` loop a second time, to an object whose
attribute at `k` already holds the value the first application produced,
changes nothing at `k`. -/
theorem applySimple_idem_step (o o₁ : Obj) (sm : List (String × JVal))
    (k : String) (hndm : (sm.map Prod.fst).Nodup)
    (h : getattr o₁ k = getattr (applySimpleList o sm) k) :
    getattr (applySimpleList o₁ sm) k = getattr o₁ k := by
  have sA := applySimple_lookup sm o k hndm
  have sB := applySimple_lookup sm o₁ k hndm
  cases hsk : assocLookup sm k with
  | none =>
    rw [hsk] at sB
    exact sB
  | some v =>
    rw [hsk] at sA sB
    dsimp only at sA sB
    by_cases hcond : k = "_complex_attributes" ∨ k = "_simple_attributes" ∨
        isNull v = true
    · rw [if_pos hcond] at sB
      exact sB
    · rw [if_neg hcond] at sA sB
      rw [sB, h, sA]

/-- C8: with fixed loaded manifests and unchanged underlying files, running
`_reload` twice leaves the host object's attribute state exactly as after one
run.  (The hypotheses say the loaded manifests are genuine dicts with unique
keys and that the complex manifest does not shadow the two bookkeeping
attribute names — always true of manifests produced by `_save`.) -/
theorem zipdist_c8_reload_idempotent (o : Obj) (disk : Disk)
    (sm cm : List (String × JVal)) (o₁ : Obj)
    (hsm : getattr o "_simple_attributes" = some (.jv (.jobj sm)))
    (hcm : getattr o "_complex_attributes" = some (.jv (.jobj cm)))
    (hndm : (sm.map Prod.fst).Nodup)
    (hndc : (cm.map Prod.fst).Nodup)
    (hr1 : "_complex_attributes" ∉ cm.map Prod.fst)
    (hr2 : "_simple_attributes" ∉ cm.map Prod.fst)
    (h1 : reload o disk = .ok o₁) :
    ∃ o₂, reload o₁ disk = .ok o₂ ∧ ∀ k, getattr o₂ k = getattr o₁ k := by
  have hrs : reload_simple_all o = .ok (applySimpleList o sm) := by
    unfold reload_simple_all
    rw [hsm]
  unfold reload at h1
  rw [hrs] at h1
  dsimp only at h1
  have hcmA : getattr (applySimpleList o sm) "_complex_attributes" =
      some (.jv (.jobj cm)) := by
    rw [applySimple_reserved_cm]
    exact hcm
  have hsmA : getattr (applySimpleList o sm) "_simple_attributes" =
      some (.jv (.jobj sm)) := by
    rw [applySimple_reserved_sm]
    exact hsm
  unfold reload_complex_all at h1
  rw [hcmA] at h1
  dsimp only at h1
  have hall := reload_complex_go_ok_inv disk cm (cm.map Prod.fst)
    (applySimpleList o sm) o₁ hcmA hr1 h1
  obtain ⟨o₁', hgo, hcm₁', hfr, hch⟩ :=
    reload_complex_go_ok disk cm (cm.map Prod.fst) (applySimpleList o sm)
      hcmA hr1 hall
  have hinj := h1.symm.trans hgo
  injection hinj with ho
  subst ho
  have hsm₁ : getattr o₁ "_simple_attributes" = some (.jv (.jobj sm)) := by
    rw [hfr _ hr2]
    exact hsmA
  have hrs₂ : reload_simple_all o₁ = .ok (applySimpleList o₁ sm) := by
    unfold reload_simple_all
    rw [hsm₁]
  have hcmB : getattr (applySimpleList o₁ sm) "_complex_attributes" =
      some (.jv (.jobj cm)) := by
    rw [applySimple_reserved_cm]
    exact hcm₁'
  obtain ⟨o₂, hgo₂, hcm₂', hfr₂, hch₂⟩ :=
    reload_complex_go_ok disk cm (cm.map Prod.fst) (applySimpleList o₁ sm)
      hcmB hr1 hall
  refine ⟨o₂, ?_, ?_⟩
  · unfold reload
    rw [hrs₂]
    dsimp only
    unfold reload_complex_all
    rw [hcmB]
    dsimp only
    exact hgo₂
  · intro k
    by_cases hks : k ∈ cm.map Prod.fst
    · obtain ⟨a, ha⟩ := hall k hks
      have e₁ := hch hndc k hks
      have e₂ := hch₂ hndc k hks
      rw [ha] at e₁ e₂
      cases a with
      | some w => exact e₂.trans e₁.symm
      | none =>
        have haux := applySimple_idem_step o o₁ sm k hndm e₁
        exact e₂.trans haux
    · have e₁ := hfr k hks
      have e₂ := hfr₂ k hks
      have haux := applySimple_idem_step o o₁ sm k hndm e₁
      exact e₂.trans haux

theorem zipdist_c8_reload_idempotent_witness :
    getattr ⟨[("_complex_attributes", PyVal.jv (.jobj [("bart", .jobj
        [("filename", .str "d/bart.cs"), ("filetype", .str "np.ndarray"),
         ("fileformat", .str "csv")])])),
      ("_simple_attributes", PyVal.jv (.jobj [("x", .num 5), ("y", .null)]))]⟩
        "_simple_attributes" =
      some (.jv (.jobj [("x", .num 5), ("y", .null)])) ∧
    getattr ⟨[("_complex_attributes", PyVal.jv (.jobj [("bart", .jobj
        [("filename", .str "d/bart.cs"), ("filetype", .str "np.ndarray"),
         ("fileformat", .str "csv")])])),
      ("_simple_attributes", PyVal.jv (.jobj [("x", .num 5), ("y", .null)]))]⟩
        "_complex_attributes" =
      some (.jv (.jobj [("bart", .jobj
        [("filename", .str "d/bart.cs"), ("filetype", .str "np.ndarray"),
         ("fileformat", .str "csv")])])) ∧
    reload ⟨[("_complex_attributes", PyVal.jv (.jobj [("bart", .jobj
        [("filename", .str "d/bart.cs"), ("filetype", .str "np.ndarray"),
         ("fileformat", .str "csv")])])),
      ("_simple_attributes", PyVal.jv (.jobj [("x", .num 5), ("y", .null)]))]⟩
      ⟨[], [("d/bart.cs", FileContent.arrData [3, 4])]⟩ =
      .ok ⟨[("_complex_attributes", PyVal.jv (.jobj [("bart", .jobj
          [("filename", .str "d/bart.cs"), ("filetype", .str "np.ndarray"),
           ("fileformat", .str "csv")])])),
        ("_simple_attributes", PyVal.jv (.jobj [("x", .num 5), ("y", .null)])),
        ("x", PyVal.jv (.num 5)), ("bart", PyVal.arr [3, 4])]⟩ ∧
    ∃ o₂, reload ⟨[("_complex_attributes", PyVal.jv (.jobj [("bart", .jobj
          [("filename", .str "d/bart.cs"), ("filetype", .str "np.ndarray"),
           ("fileformat", .str "csv")])])),
        ("_simple_attributes", PyVal.jv (.jobj [("x", .num 5), ("y", .null)])),
        ("x", PyVal.jv (.num 5)), ("bart", PyVal.arr [3, 4])]⟩
        ⟨[], [("d/bart.cs", FileContent.arrData [3, 4])]⟩ = .ok o₂ ∧
      ∀ k, getattr o₂ k =
        getattr ⟨[("_complex_attributes", PyVal.jv (.jobj [("bart", .jobj
            [("filename", .str "d/bart.cs"), ("filetype", .str "np.ndarray"),
             ("fileformat", .str "csv")])])),
          ("_simple_attributes", PyVal.jv (.jobj [("x", .num 5),
            ("y", .null)])),
          ("x", PyVal.jv (.num 5)), ("bart", PyVal.arr [3, 4])]⟩ k :=
  ⟨rfl, rfl, rfl,
   zipdist_c8_reload_idempotent
     ⟨[("_complex_attributes", PyVal.jv (.jobj [("bart", .jobj
         [("filename", .str "d/bart.cs"), ("filetype", .str "np.ndarray"),
          ("fileformat", .str "csv")])])),
       ("_simple_attributes", PyVal.jv (.jobj [("x", .num 5),
         ("y", .null)]))]⟩
     ⟨[], [("d/bart.cs", FileContent.arrData [3, 4])]⟩
     [("x", .num 5), ("y", .null)]
     [("bart", .jobj [("filename", .str "d/bart.cs"),
       ("filetype", .str "np.ndarray"), ("fileformat", .str "csv")])]
     ⟨[("_complex_attributes", PyVal.jv (.jobj [("bart", .jobj
         [("filename", .str "d/bart.cs"), ("filetype", .str "np.ndarray"),
          ("fileformat", .str "csv")])])),
       ("_simple_attributes", PyVal.jv (.jobj [("x", .num 5), ("y", .null)])),
       ("x", PyVal.jv (.num 5)), ("bart", PyVal.arr [3, 4])]⟩
     rfl rfl (by decide) (by decide) (by decide) (by decide) rfl⟩

/-! ## Claim C1 (corrected) -/

/-- C1, counterexample: an attribute whose value is `None` is recorded as
`null` in the simple manifest and the reload path skips nulls
(zip.py lines 180–181), so after save + build on a fresh instance the
attribute does not exist on the rebuilt object — attribute-for-attribute
equality "including attributes whose value is null/None" fails. -/
theorem zipdist_c1_counterexample :
    (let s := save ⟨[("name", PyVal.jv (.str "t")), ("x", PyVal.jv .null)]⟩
        (some "d") (some "d.tar.gz") ⟨[], []⟩ [];
     let b := build ⟨[("name", PyVal.jv (.str "t"))]⟩ (some "d")
        (some "d.tar.gz") s.disk s.archives true;
     getattr ⟨[("name", PyVal.jv (.str "t")), ("x", PyVal.jv .null)]⟩ "x" =
         some (PyVal.jv .null) ∧
       b.err = none ∧ getattr b.obj "x" = none) := ⟨rfl, rfl, rfl⟩

/-- C1, amended: for a host object whose attributes are all
JSON-serializable, save followed by build-with-reload on a fresh instance
restores every attribute whose value is not `None` (and whose name is not one
of the two reserved manifest names) to a value equal to the original's.
`None`-valued attributes are skipped by reload and are not recreated. -/
theorem zipdist_c1_roundtrip_nonnull (o o0 : Obj) (d t : String) (disk : Disk)
    (arch : Archives)
    (hjson : ∀ p ∈ o.attrs, isJsonV p.2 = true)
    (hnodup : (o.attrs.map Prod.fst).Nodup)
    (hdisk : (disk.files.map Prod.fst).Nodup) :
    ∃ o' disk',
      build o0 (some d) (some t) (save o (some d) (some t) disk arch).disk
        (save o (some d) (some t) disk arch).archives true =
        ⟨o', disk', none⟩ ∧
      ∀ k v, getattr o k = some v → v ≠ .jv .null →
        k ≠ "_complex_attributes" → k ≠ "_simple_attributes" →
        getattr o' k = some v := by
  obtain ⟨oF, mF, diskF, heq, hoF, hlk, hcmf, hsmf, hndf⟩ :=
    save_spec o d t disk arch
  have hcomplexF : ∀ k, arrAt oF k = false ∧ dfAt oF k = false := by
    intro k
    by_cases h1 : k = "_complex_attributes"
    · subst h1
      have hg : getattr oF "_complex_attributes" = some (.jv (.jobj mF)) := by
        rw [hoF]
        exact getattr_setattr_self ..
      exact ⟨arrAt_of_getattr_jv hg, dfAt_of_getattr_jv hg⟩
    · by_cases h2 : k = "_simple_attributes"
      · subst h2
        have hg : getattr oF "_simple_attributes" = some (.jv (.jobj [])) := by
          rw [hoF, getattr_setattr_ne _ _ _ _ (by decide)]
          exact getattr_setattr_self ..
        exact ⟨arrAt_of_getattr_jv hg, dfAt_of_getattr_jv hg⟩
      · have hg : getattr oF k = getattr o k := by
          rw [hoF]
          exact getattr_saved_user o mF k h1 h2
        cases hgo : getattr o k with
        | none =>
          rw [hgo] at hg
          constructor
          · unfold arrAt; rw [hg]
          · unfold dfAt; rw [hg]
        | some v =>
          have hj := hjson _ (lookup_mem hgo)
          cases v with
          | jv j =>
            rw [hgo] at hg
            exact ⟨arrAt_of_getattr_jv hg, dfAt_of_getattr_jv hg⟩
          | arr xs => simp [isJsonV] at hj
          | df c r => simp [isJsonV] at hj
          | other => simp [isJsonV] at hj
  have hmFnil : mF = [] := by
    apply eq_nil_of_lookup_none
    intro k
    rw [hlk k, (hcomplexF k).1, (hcomplexF k).2]
    simp
  subst hmFnil
  rw [heq]
  dsimp only
  have hfsnodup : ((diskF.files.filter (fun p => inDir d p.1)).map
      Prod.fst).Nodup := nodup_keys_filter _ _ (hndf hdisk)
  have hget : ∀ (fname : String) (c : FileContent),
      getFile diskF (pathJoin d fname) = some c →
      getFile (writeFiles diskF (diskF.files.filter (fun p => inDir d p.1)))
        (pathJoin d fname) = some c := by
    intro fname c hc
    rw [getFile_writeFiles _ _ _ hfsnodup]
    have h3 : assocLookup (diskF.files.filter (fun p => inDir d p.1))
        (pathJoin d fname) = some c := by
      rw [assocLookup_filter_key (fun p => inDir d p) _ _
        (inDir_pathJoin d fname)]
      exact hc
    rw [h3]
  have hext : extractTarfile
      (assocSet arch t (diskF.files.filter (fun p => inDir d p.1))) t diskF =
      some (writeFiles diskF (diskF.files.filter (fun p => inDir d p.1))) := by
    unfold extractTarfile
    rw [assocLookup_set_self]
  have hc' := hget "complex_attributes.json" _ hcmf
  have hs' := hget "simple_attributes.json" _ hsmf
  have hsmL : getattr (setattr (setattr (setattr (setattr (setattr (setattr o0
      "_complex_attributes" (.jv (.jobj []))) "_simple_attributes"
      (.jv (.jobj []))) "dest" (.jv (.str d))) "dest_tar" (.jv (.str t)))
      "_complex_attributes" (jsonToPy (.jobj []))) "_simple_attributes"
      (jsonToPy (.jobj (oF.attrs.map (fun p => (p.1, pyToJson p.2))))))
      "_simple_attributes" =
      some (.jv (.jobj (oF.attrs.map (fun p => (p.1, pyToJson p.2))))) :=
    getattr_setattr_self ..
  have hrsL : reload_simple_all (setattr (setattr (setattr (setattr (setattr
      (setattr o0 "_complex_attributes" (.jv (.jobj [])))
      "_simple_attributes" (.jv (.jobj []))) "dest" (.jv (.str d)))
      "dest_tar" (.jv (.str t))) "_complex_attributes" (jsonToPy (.jobj [])))
      "_simple_attributes" (jsonToPy (.jobj (oF.attrs.map
        (fun p => (p.1, pyToJson p.2)))))) =
      .ok (applySimpleList (setattr (setattr (setattr (setattr (setattr
        (setattr o0 "_complex_attributes" (.jv (.jobj [])))
        "_simple_attributes" (.jv (.jobj []))) "dest" (.jv (.str d)))
        "dest_tar" (.jv (.str t))) "_complex_attributes"
        (jsonToPy (.jobj []))) "_simple_attributes" (jsonToPy (.jobj
          (oF.attrs.map (fun p => (p.1, pyToJson p.2))))))
        (oF.attrs.map (fun p => (p.1, pyToJson p.2)))) := by
    unfold reload_simple_all
    rw [hsmL]
  have hcmL : getattr (applySimpleList (setattr (setattr (setattr (setattr
      (setattr (setattr o0 "_complex_attributes" (.jv (.jobj [])))
      "_simple_attributes" (.jv (.jobj []))) "dest" (.jv (.str d)))
      "dest_tar" (.jv (.str t))) "_complex_attributes" (jsonToPy (.jobj [])))
      "_simple_attributes" (jsonToPy (.jobj (oF.attrs.map
        (fun p => (p.1, pyToJson p.2))))))
      (oF.attrs.map (fun p => (p.1, pyToJson p.2))))
      "_complex_attributes" = some (.jv (.jobj [])) := by
    rw [applySimple_reserved_cm]
    rw [getattr_setattr_ne _ _ _ _ (by decide)]
    exact getattr_setattr_self ..
  have hrel : reload (setattr (setattr (setattr (setattr (setattr (setattr o0
      "_complex_attributes" (.jv (.jobj []))) "_simple_attributes"
      (.jv (.jobj []))) "dest" (.jv (.str d))) "dest_tar" (.jv (.str t)))
      "_complex_attributes" (jsonToPy (.jobj []))) "_simple_attributes"
      (jsonToPy (.jobj (oF.attrs.map (fun p => (p.1, pyToJson p.2))))))
      (writeFiles diskF (diskF.files.filter (fun p => inDir d p.1))) =
      .ok (applySimpleList (setattr (setattr (setattr (setattr (setattr
        (setattr o0 "_complex_attributes" (.jv (.jobj [])))
        "_simple_attributes" (.jv (.jobj []))) "dest" (.jv (.str d)))
        "dest_tar" (.jv (.str t))) "_complex_attributes"
        (jsonToPy (.jobj []))) "_simple_attributes" (jsonToPy (.jobj
          (oF.attrs.map (fun p => (p.1, pyToJson p.2))))))
        (oF.attrs.map (fun p => (p.1, pyToJson p.2)))) := by
    unfold reload
    rw [hrsL]
    dsimp only
    unfold reload_complex_all
    rw [hcmL]
    rfl
  have hb : build o0 (some d) (some t) diskF
      (assocSet arch t (diskF.files.filter (fun p => inDir d p.1))) true =
      ⟨applySimpleList (setattr (setattr (setattr (setattr (setattr
          (setattr o0 "_complex_attributes" (.jv (.jobj [])))
          "_simple_attributes" (.jv (.jobj []))) "dest" (.jv (.str d)))
          "dest_tar" (.jv (.str t))) "_complex_attributes"
          (jsonToPy (.jobj []))) "_simple_attributes" (jsonToPy (.jobj
            (oF.attrs.map (fun p => (p.1, pyToJson p.2))))))
          (oF.attrs.map (fun p => (p.1, pyToJson p.2))),
        writeFiles diskF (diskF.files.filter (fun p => inDir d p.1)),
        none⟩ := by
    simp only [build]
    rw [hext]
    dsimp only
    rw [hc']
    dsimp only
    rw [hs']
    dsimp only
    rw [if_pos trivial, hrel]
  refine ⟨_, _, hb, ?_⟩
  intro k v hgo hvn h1 h2
  have hjF : assocLookup oF.attrs k = some v := by
    show getattr oF k = some v
    rw [hoF]
    rw [getattr_saved_user o [] k h1 h2]
    exact hgo
  obtain ⟨j, hj⟩ : ∃ j, v = .jv j := by
    have hjv := hjson _ (lookup_mem hgo)
    cases v with
    | jv j => exact ⟨j, rfl⟩
    | arr xs => simp [isJsonV] at hjv
    | df c r => simp [isJsonV] at hjv
    | other => simp [isJsonV] at hjv
  subst hj
  have hjne : j ≠ .null := fun he => hvn (by rw [he])
  have hnd_sm : ((oF.attrs.map (fun p => (p.1, pyToJson p.2))).map
      Prod.fst).Nodup := by
    rw [keys_map_value, hoF]
    exact nodup_attrs_setattr _ _ _ (nodup_attrs_setattr _ _ _
      (nodup_attrs_setattr _ _ _ hnodup))
  rw [applySimple_lookup _ _ _ hnd_sm]
  have hlkd : assocLookup (oF.attrs.map (fun p => (p.1, pyToJson p.2))) k =
      some (pyToJson (.jv j)) := by
    rw [assocLookup_map_value, hjF]
    rfl
  rw [hlkd]
  dsimp only
  have hcond : ¬(k = "_complex_attributes" ∨ k = "_simple_attributes" ∨
      isNull (pyToJson (PyVal.jv j)) = true) := by
    intro hcond
    rcases hcond with hcq | hcq | hcq
    · exact h1 hcq
    · exact h2 hcq
    · have h5 : isNull j = true := hcq
      rw [isNull_eq_false hjne] at h5
      exact Bool.false_ne_true h5
  rw [if_neg hcond]
  rfl

theorem zipdist_c1_roundtrip_nonnull_witness :
    (∀ p ∈ ([("name", PyVal.jv (.str "t")), ("y", PyVal.jv (.num 5)),
        ("x", PyVal.jv .null)] : List (String × PyVal)), isJsonV p.2 = true) ∧
    (([("name", PyVal.jv (.str "t")), ("y", PyVal.jv (.num 5)),
        ("x", PyVal.jv .null)] : List (String × PyVal)).map Prod.fst).Nodup ∧
    ∃ o' disk',
      build ⟨[("name", PyVal.jv (.str "t"))]⟩ (some "d") (some "d.tar.gz")
        (save ⟨[("name", PyVal.jv (.str "t")), ("y", PyVal.jv (.num 5)),
          ("x", PyVal.jv .null)]⟩ (some "d") (some "d.tar.gz") ⟨[], []⟩ []).disk
        (save ⟨[("name", PyVal.jv (.str "t")), ("y", PyVal.jv (.num 5)),
          ("x", PyVal.jv .null)]⟩ (some "d") (some "d.tar.gz") ⟨[], []⟩
          []).archives true = ⟨o', disk', none⟩ ∧
      ∀ k v, getattr ⟨[("name", PyVal.jv (.str "t")), ("y", PyVal.jv (.num 5)),
          ("x", PyVal.jv .null)]⟩ k = some v → v ≠ .jv .null →
        k ≠ "_complex_attributes" → k ≠ "_simple_attributes" →
        getattr o' k = some v :=
  ⟨by decide, by decide,
   zipdist_c1_roundtrip_nonnull ⟨[("name", PyVal.jv (.str "t")),
       ("y", PyVal.jv (.num 5)), ("x", PyVal.jv .null)]⟩
     ⟨[("name", PyVal.jv (.str "t"))]⟩ "d" "d.tar.gz" ⟨[], []⟩ []
     (by decide) (by decide) (by decide)⟩
